import Mathlib

/-!
# Verification of the LegoClicker native bridge against its specification

Shallow embedding of the core logic of `src/McInjector/src/main/cpp/bridge.cpp`
(the 1.8.9 bridge) and `src/McInjector/src/main/cpp/bridge_121.cpp` (the 1.21
bridge).  C++ `std::string` values are modelled as `List Char`; byte strings as
`List Nat`; `float`/`double` values as exact rationals (`ℚ`), with calls into
libm (`sinf`, `cosf`, `tanf`, `sqrtf`) passed in as function parameters.  All
rationals are finite, so `std::isfinite` checks from the source are vacuously
true in the model and noted where they occur.
-/

/-! ## String primitives (std::string operations used by ParseConfig) -/

/-- Whether `pat` occurs at the head of `s`. -/
def matchesAt : List Char → List Char → Bool
  | [], _ => true
  | _ :: _, [] => false
  | p :: ps, c :: cs => p == c && matchesAt ps cs

/-- Auxiliary scan for `strFind`, tracking the current index. -/
def strFindAux (pat : List Char) : List Char → Nat → Option Nat
  | [], i => if matchesAt pat [] then some i else none
  | c :: rest, i =>
      if matchesAt pat (c :: rest) then some i else strFindAux pat rest (i + 1)

/-- Model of `std::string::find(pat)`: index of the first occurrence, `none` for npos. -/
def strFind (s pat : List Char) : Option Nat := strFindAux pat s 0

/-- Model of `std::string::find(ch, from)`: first occurrence of `ch` at index ≥ `start`. -/
def strFindCharFrom (s : List Char) (ch : Char) (start : Nat) : Option Nat :=
  (strFindAux [ch] (s.drop start) 0).map (· + start)

/-- Auxiliary scan for `strFindFirstOf`. -/
def strFindFirstOfAux (cs : List Char) : List Char → Nat → Option Nat
  | [], _ => none
  | c :: rest, i =>
      if cs.contains c then some i else strFindFirstOfAux cs rest (i + 1)

/-- Model of `std::string::find_first_of(set, from)`. -/
def strFindFirstOf (s : List Char) (cs : List Char) (start : Nat) : Option Nat :=
  (strFindFirstOfAux cs (s.drop start) 0).map (· + start)

/-- Model of `std::string::substr(pos, count)` (count clamped to the end of the string,
as in C++; the call sites below never pass `pos` past the end). -/
def substr (s : List Char) (pos count : Nat) : List Char :=
  (s.drop pos).take count

/-- Digits at the head of the string, and the remainder. -/
def takeDigits : List Char → List Char × List Char
  | [] => ([], [])
  | c :: rest =>
      if c.isDigit then
        let (ds, r) := takeDigits rest
        (c :: ds, r)
      else ([], c :: rest)

/-- Numeric value of a digit string. -/
def digitsVal (ds : List Char) : Nat :=
  ds.foldl (fun a c => a * 10 + (c.toNat - 48)) 0

/-- Model of `std::stoi`: optional whitespace and sign, then at least one digit;
trailing junk ignored; `none` models the `std::invalid_argument` throw. -/
def stoiModel (s : List Char) : Option Int :=
  let s1 := s.dropWhile (fun c => c == ' ' || c == '\t' || c == '\n' || c == '\r')
  let (neg, s2) :=
    match s1 with
    | '-' :: r => (true, r)
    | '+' :: r => (false, r)
    | r => (false, r)
  let (ds, _) := takeDigits s2
  if ds.isEmpty then none
  else some (if neg then -(digitsVal ds : Int) else (digitsVal ds : Int))

/-- Model of `std::stof` on plain decimal forms (optional whitespace, sign, digits,
optional fraction); exponent/hex/inf/nan spellings are not exercised by the
bridge's control messages and are unmodelled.  `none` models the throw. -/
def stofModel (s : List Char) : Option ℚ :=
  let s1 := s.dropWhile (fun c => c == ' ' || c == '\t' || c == '\n' || c == '\r')
  let (neg, s2) :=
    match s1 with
    | '-' :: r => (true, r)
    | '+' :: r => (false, r)
    | r => (false, r)
  let (ids, rest) := takeDigits s2
  let (fds, _) :=
    match rest with
    | '.' :: r => takeDigits r
    | _ => ([], ([] : List Char))
  if ids.isEmpty && fds.isEmpty then none
  else
    let mag : ℚ := (digitsVal ids : ℚ) + (digitsVal fds : ℚ) / ((10 : ℚ) ^ fds.length)
    some (if neg then -mag else mag)

/-! ## ParseConfig, 1.8.9 bridge (bridge.cpp lines 3386-3426)

`getStr` from bridge.cpp: find `"key":`; if the value starts with a quote,
take up to the closing quote (no npos check in this version: an unterminated
quote yields the rest of the line); otherwise take up to the next `,` or
closing brace.  An index one past the end reads the terminating NUL, which is
well defined for `const std::string::operator[]`. -/

def getStr189 (line key : List Char) : List Char :=
  let k : List Char := '"' :: (key ++ ['"', ':'])
  match strFind line k with
  | none => []
  | some p0 =>
      let p := p0 + k.length
      if line.getD p '\x00' == '"' then
        match strFindCharFrom line '"' (p + 1) with
        | none => line.drop (p + 1)
        | some e => substr line (p + 1) (e - p - 1)
      else
        match strFindFirstOf line [',', '\x7d'] p with
        | none => line.drop p
        | some e => substr line p (e - p)

/-- Configuration of the 1.8.9 bridge (bridge.cpp `struct Config`). -/
structure Config189 where
  leftClick : Bool := true
  rightClick : Bool := false
  jitter : Bool := true
  rightBlockOnly : Bool := false
  clickInChests : Bool := false
  nametags : Bool := false
  closestPlayerInfo : Bool := false
  nametagShowHealth : Bool := true
  nametagShowArmor : Bool := true
  chestEsp : Bool := false
  minCPS : ℚ := 10
  maxCPS : ℚ := 14
  rightMinCPS : ℚ := 10
  rightMaxCPS : ℚ := 14
  armed : Bool := false
  clicking : Bool := false
  keybindAutoclicker : Int := 0xC0
  keybindNametags : Int := 0
  keybindClosestPlayer : Int := 0
  keybindChestEsp : Int := 0
  deriving DecidableEq, Repr

/-- The `ParseConfig` of bridge.cpp.  Lambda `getFloat` has no try/catch in this version;
the throwing path (non-empty, non-numeric value) is modelled as 0 and is not
exercised by any claim.  `getInt` likewise returns -1 only for an absent key. -/
def parseConfig189 (line : List Char) (g : Config189) : Config189 :=
  let getS := fun (key : String) => getStr189 line key.toList
  let getB := fun (key : String) => getS key == "true".toList
  let getF := fun (key : String) =>
    let v := getS key
    if v.isEmpty then (0 : ℚ) else (stofModel v).getD 0
  let getI := fun (key : String) =>
    let v := getS key
    if v.isEmpty then (-1 : Int) else (stoiModel v).getD (-1)
  if getS "type" == "config".toList then
    let c : Config189 :=
      { g with
        armed := getB "armed"
        clicking := getB "clicking"
        minCPS := getF "minCPS"
        maxCPS := getF "maxCPS"
        leftClick := getB "left"
        rightClick := getB "right"
        rightMinCPS := getF "rightMinCPS"
        rightMaxCPS := getF "rightMaxCPS"
        rightBlockOnly := getB "rightBlock"
        jitter := getB "jitter"
        clickInChests := getB "clickInChests"
        nametags := getB "nametags"
        closestPlayerInfo := getB "closestPlayerInfo"
        nametagShowHealth := getB "nametagShowHealth"
        nametagShowArmor := getB "nametagShowArmor"
        chestEsp := getB "chestEsp" }
    let c := if getI "keybindAutoclicker" ≥ 0 then
      { c with keybindAutoclicker := getI "keybindAutoclicker" } else c
    let c := if getI "keybindNametags" ≥ 0 then
      { c with keybindNametags := getI "keybindNametags" } else c
    let c := if getI "keybindClosestPlayer" ≥ 0 then
      { c with keybindClosestPlayer := getI "keybindClosestPlayer" } else c
    let c := if getI "keybindChestEsp" ≥ 0 then
      { c with keybindChestEsp := getI "keybindChestEsp" } else c
    c
  else g

/-! ## ParseConfig, 1.21 bridge (bridge_121.cpp lines 148-200)

This version bounds-checks: `p >= line.size()` yields `""`, and an
unterminated quoted value yields `""` rather than the rest of the line. -/

def getStr121 (line key : List Char) : List Char :=
  let k : List Char := '"' :: (key ++ ['"', ':'])
  match strFind line k with
  | none => []
  | some p0 =>
      let p := p0 + k.length
      if line.length ≤ p then []
      else if line.getD p '\x00' == '"' then
        match strFindCharFrom line '"' (p + 1) with
        | none => []
        | some e => substr line (p + 1) (e - p - 1)
      else
        match strFindFirstOf line [',', '\x7d'] p with
        | none => line.drop p
        | some e => substr line p (e - p)

/-- Configuration of the 1.21 bridge (bridge_121.cpp `struct Config`). -/
structure Config121 where
  armed : Bool := false
  clicking : Bool := false
  minCPS : ℚ := 10
  maxCPS : ℚ := 14
  jitter : Bool := false
  clickInChests : Bool := false
  aimAssist : Bool := false
  nametags : Bool := false
  chestEsp : Bool := false
  closestPlayer : Bool := false
  nametagHealth : Bool := true
  nametagArmor : Bool := true
  nametagMaxCount : Int := 8
  chestEspMaxCount : Int := 5
  rightClick : Bool := false
  rightMinCPS : ℚ := 10
  rightMaxCPS : ℚ := 14
  rightBlockOnly : Bool := false
  breakBlocks : Bool := false
  gtbHelper : Bool := false
  gtbCount : Int := 0
  gtbHint : List Char := []
  gtbPreview : List Char := []
  deriving DecidableEq, Repr

/-- The `ParseConfig` of bridge_121.cpp.  Its `getFloat`/`getInt` wrap the
conversion in try/catch, returning 0 resp. the supplied default. -/
def parseConfig121 (line : List Char) (g : Config121) : Config121 :=
  let getS := fun (key : String) => getStr121 line key.toList
  let getB := fun (key : String) => getS key == "true".toList
  let getF := fun (key : String) =>
    let v := getS key
    if v.isEmpty then (0 : ℚ) else (stofModel v).getD 0
  let getI := fun (key : String) (d : Int) =>
    let v := getS key
    if v.isEmpty then d else (stoiModel v).getD d
  if getS "type" == "config".toList then
    { g with
      armed := getB "armed"
      clicking := getB "clicking"
      minCPS := getF "minCPS"
      maxCPS := getF "maxCPS"
      jitter := getB "jitter"
      clickInChests := getB "clickInChests"
      aimAssist := getB "aimAssist"
      nametags := getB "nametags"
      chestEsp := getB "chestEsp"
      closestPlayer := getB "closestPlayerInfo"
      nametagHealth := getB "nametagShowHealth"
      nametagArmor := getB "nametagShowArmor"
      nametagMaxCount := max 1 (min 20 (getI "nametagMaxCount" g.nametagMaxCount))
      chestEspMaxCount := max 1 (min 20 (getI "chestEspMaxCount" g.chestEspMaxCount))
      rightClick := getB "right"
      rightMinCPS := getF "rightMinCPS"
      rightMaxCPS := getF "rightMaxCPS"
      rightBlockOnly := getB "rightBlock"
      breakBlocks := getB "breakBlocks"
      gtbHelper := getB "gtbHelper"
      gtbHint := getS "gtbHint"
      gtbCount := getI "gtbCount" 0
      gtbPreview := getS "gtbPreview" }
  else g

/-- The control message `{"type":"config","armed":true}` (braces escaped). -/
def armedOnlyMsg : List Char := "\x7b\"type\":\"config\",\"armed\":true\x7d".toList

/-- The control message `{"type":"config","nametags":true}`. -/
def nametagsOnMsg : List Char := "\x7b\"type\":\"config\",\"nametags\":true\x7d".toList

example : (parseConfig121 nametagsOnMsg {}).nametags = true := by decide
example : (parseConfig121 armedOnlyMsg (parseConfig121 nametagsOnMsg {})).nametags = false := by
  decide
example : (parseConfig189 armedOnlyMsg {}).keybindAutoclicker = 0xC0 := by decide

/-! ## Coordinate projection (bridge.cpp 1891-1915, bridge_121.cpp 360-458)

Floats are modelled as exact rationals; every rational is finite, so the
`std::isfinite` guards of the source are identically true here and are noted
inline where the source checks them. -/

/-- A 4x4 matrix in the column-major flat layout `m[0] .. m[15]` used by the
source (`struct Matrix4x4 { float m[16]; }`). -/
structure Mat4 where
  m0 : ℚ := 0
  m1 : ℚ := 0
  m2 : ℚ := 0
  m3 : ℚ := 0
  m4 : ℚ := 0
  m5 : ℚ := 0
  m6 : ℚ := 0
  m7 : ℚ := 0
  m8 : ℚ := 0
  m9 : ℚ := 0
  m10 : ℚ := 0
  m11 : ℚ := 0
  m12 : ℚ := 0
  m13 : ℚ := 0
  m14 : ℚ := 0
  m15 : ℚ := 0
  deriving DecidableEq, Repr

/-- The `LegoVec3` of bridge_121.cpp. -/
structure LegoVec3 where
  x : ℚ
  y : ℚ
  z : ℚ
  deriving DecidableEq, Repr

/-- Post-projection w component of bridge.cpp's `WorldToScreen` (`pW`). -/
def wts189W (x y z : ℚ) (view proj : Mat4) : ℚ :=
  let vX := x * view.m0 + y * view.m4 + z * view.m8 + view.m12
  let vY := x * view.m1 + y * view.m5 + z * view.m9 + view.m13
  let vZ := x * view.m2 + y * view.m6 + z * view.m10 + view.m14
  let vW := x * view.m3 + y * view.m7 + z * view.m11 + view.m15
  vX * proj.m3 + vY * proj.m7 + vZ * proj.m11 + vW * proj.m15

/-- The `WorldToScreen` of bridge.cpp (matrix strategy, epsilon 0.02).  The input
is already camera-relative in this version. -/
def worldToScreen189 (x y z : ℚ) (view proj : Mat4) (w h : ℚ) : Option (ℚ × ℚ) :=
  let vX := x * view.m0 + y * view.m4 + z * view.m8 + view.m12
  let vY := x * view.m1 + y * view.m5 + z * view.m9 + view.m13
  let vZ := x * view.m2 + y * view.m6 + z * view.m10 + view.m14
  let pX := vX * proj.m0 + vY * proj.m4 + vZ * proj.m8 + proj.m12
  let pY := vX * proj.m1 + vY * proj.m5 + vZ * proj.m9 + proj.m13
  let pW := wts189W x y z view proj  -- vW folded into wts189W
  if pW < 2 / 100 then none
  else
    let ndcX := pX / pW
    let ndcY := pY / pW
    some ((ndcX + 1) * (1 / 2) * w, (1 - ndcY) * (1 / 2) * h)

/-- Post-projection w component of bridge_121.cpp's `WorldToScreen` (`ndcW`). -/
def wts121W (pos camPos : LegoVec3) (view proj : Mat4) : ℚ :=
  let dx := pos.x - camPos.x
  let dy := pos.y - camPos.y
  let dz := pos.z - camPos.z
  let clipX := dx * view.m0 + dy * view.m4 + dz * view.m8 + view.m12
  let clipY := dx * view.m1 + dy * view.m5 + dz * view.m9 + view.m13
  let clipZ := dx * view.m2 + dy * view.m6 + dz * view.m10 + view.m14
  let clipW := dx * view.m3 + dy * view.m7 + dz * view.m11 + view.m15
  clipX * proj.m3 + clipY * proj.m7 + clipZ * proj.m11 + clipW * proj.m15

/-- The `WorldToScreen` of bridge_121.cpp (matrix strategy, epsilon 0.1).  The
source additionally rejects non-finite `ndcW`/`ndcX`/`ndcY`/`sx`/`sy`; every
rational is finite, so those guards are identically true here. -/
def worldToScreen121 (pos camPos : LegoVec3) (view proj : Mat4) (winW winH : ℚ) :
    Option (ℚ × ℚ) :=
  let dx := pos.x - camPos.x
  let dy := pos.y - camPos.y
  let dz := pos.z - camPos.z
  let clipX := dx * view.m0 + dy * view.m4 + dz * view.m8 + view.m12
  let clipY := dx * view.m1 + dy * view.m5 + dz * view.m9 + view.m13
  let ndcX0 := clipX * proj.m0 + clipY * proj.m4
      + (dx * view.m2 + dy * view.m6 + dz * view.m10 + view.m14) * proj.m8
      + (dx * view.m3 + dy * view.m7 + dz * view.m11 + view.m15) * proj.m12
  let ndcY0 := clipX * proj.m1 + clipY * proj.m5
      + (dx * view.m2 + dy * view.m6 + dz * view.m10 + view.m14) * proj.m9
      + (dx * view.m3 + dy * view.m7 + dz * view.m11 + view.m15) * proj.m13
  let ndcW := wts121W pos camPos view proj
  if ndcW < 1 / 10 then none
  else
    let ndcX := ndcX0 / ndcW
    let ndcY := ndcY0 / ndcW
    some ((ndcX + 1) * (1 / 2) * winW, (1 - ndcY) * (1 / 2) * winH)

/-- The `PI` literal of `WorldToScreen_Angles` (`3.14159265f`, kept exact). -/
def anglesPI : ℚ := 314159265 / 100000000

/-- Forward component `vFwd` of the camera-relative offset as computed by
`WorldToScreen_Angles` (bridge_121.cpp): the offset projected onto the
forward vector built from yaw/pitch via `sinf`/`cosf`. -/
def anglesVFwd (sinf cosf : ℚ → ℚ) (worldPos camPos : LegoVec3)
    (yawDeg pitchDeg : ℚ) : ℚ :=
  let dx := worldPos.x - camPos.x
  let dy := worldPos.y - camPos.y
  let dz := worldPos.z - camPos.z
  let yaw := yawDeg * (anglesPI / 180)
  let pitch := pitchDeg * (anglesPI / 180)
  let fX := -(sinf yaw) * cosf pitch
  let fY := -(sinf pitch)
  let fZ := cosf yaw * cosf pitch
  dx * fX + dy * fY + dz * fZ

/-- The `WorldToScreen_Angles` of bridge_121.cpp (angle-reconstruction strategy).
The libm calls `sinf`, `cosf`, `tanf`, `sqrtf` are passed in as parameters.
The source's `isfinite` guards on `vFwd`, `ndcX`, `ndcY`, `sx`, `sy` are
identically true over ℚ. -/
def worldToScreenAngles (sinf cosf tanf sqrtf : ℚ → ℚ)
    (worldPos camPos : LegoVec3) (yawDeg pitchDeg fovDeg : ℚ)
    (winW winH : ℚ) : Option (ℚ × ℚ) :=
  let dx := worldPos.x - camPos.x
  let dy := worldPos.y - camPos.y
  let dz := worldPos.z - camPos.z
  let yaw := yawDeg * (anglesPI / 180)
  let pitch := pitchDeg * (anglesPI / 180)
  let sinY := sinf yaw
  let cosY := cosf yaw
  let sinP := sinf pitch
  let cosP := cosf pitch
  let fX := -sinY * cosP
  let fY := -sinP
  let fZ := cosY * cosP
  -- right = worldUp x forward, with up = (0,1,0)
  let rX0 := 1 * fZ - 0 * fY
  let rY0 := 0 * fX - 0 * fZ
  let rZ0 := 0 * fY - 1 * fX
  let rLen0 := sqrtf (rX0 * rX0 + rY0 * rY0 + rZ0 * rZ0)
  -- looking straight up/down: pick an arbitrary right vector
  let p :=
    if rLen0 < 1 / 1000000 then ((1 : ℚ), (0 : ℚ), (0 : ℚ), (1 : ℚ))
    else (rX0, rY0, rZ0, rLen0)
  let rX := p.1 / p.2.2.2
  let rY := p.2.1 / p.2.2.2
  let rZ := p.2.2.1 / p.2.2.2
  -- up = forward x right
  let uX := fY * rZ - fZ * rY
  let uY := fZ * rX - fX * rZ
  let uZ := fX * rY - fY * rX
  let vFwd := anglesVFwd sinf cosf worldPos camPos yawDeg pitchDeg
  let vRight := dx * rX + dy * rY + dz * rZ
  let vUp := dx * uX + dy * uY + dz * uZ
  if vFwd < 1 / 10 then none  -- behind camera
  else
    let aspect := winW / winH
    let tanHalfFov := tanf (fovDeg * (1 / 2) * (anglesPI / 180))
    let ndcX := (vRight / vFwd) / (tanHalfFov * aspect)
    let ndcY := (vUp / vFwd) / tanHalfFov
    some ((ndcX + 1) * (1 / 2) * winW, (1 - ndcY) * (1 / 2) * winH)

/-! ## Overlay smoothing

bridge.cpp `RenderNametags` (lines 2189-2218): per-entity exponential
blending with a large-delta snap; bridge_121.cpp `hwglSwapBuffers`
(lines 4270-4336): exponential blending with a clamped per-frame alpha and no
snap threshold. -/

/-- One smoothing accumulator of bridge.cpp's `g_tagSmoothing` map. -/
structure TagSmooth where
  x : ℚ
  y : ℚ
  vx : ℚ
  vy : ℚ
  deriving DecidableEq, Repr

/-- One frame of bridge.cpp's nametag smoothing.  `none` models
`!smooth.init` (first sighting); `dist` is the entity's world distance, which
selects the blend factor. -/
def tagSmoothStep (s : Option TagSmooth) (px py dist : ℚ) : TagSmooth :=
  match s with
  | none => ⟨px, py, 0, 0⟩
  | some s =>
      let dxs := px - s.x
      let dys := py - s.y
      let deltaSq := dxs * dxs + dys * dys
      if deltaSq > 24000 then ⟨px, py, 0, 0⟩
      else
        let blend : ℚ :=
          if deltaSq < 6 then 22 / 100
          else if dist < 12 then 14 / 100
          else 12 / 100
        ⟨s.x + dxs * blend, s.y + dys * blend, s.vx, s.vy⟩

/-- bridge_121.cpp: `overlaySmoothAlpha = max(0.15, min(0.65, DeltaTime*14))`. -/
def overlaySmoothAlpha (deltaTime : ℚ) : ℚ :=
  max (15 / 100) (min (65 / 100) (deltaTime * 14))

/-- bridge_121.cpp: one frame of the nametag `SmoothedPoint` update
(`sm.sx += (sx - sm.sx) * overlaySmoothAlpha`, same for y); no snap branch
exists in this version. -/
def overlaySmoothStep (alpha : ℚ) (s target : ℚ × ℚ) : ℚ × ℚ :=
  (s.1 + (target.1 - s.1) * alpha, s.2 + (target.2 - s.2) * alpha)

example :
    worldToScreenAngles (fun _ => 0) (fun _ => 1) (fun _ => 1) (fun x => x)
      ⟨0, 0, 10⟩ ⟨0, 0, 0⟩ 0 0 70 1920 1080 = some (960, 540) := by
  simp only [worldToScreenAngles, anglesVFwd, zero_mul, mul_zero, mul_one, one_mul,
    neg_zero, zero_sub, sub_zero, neg_neg, add_zero, zero_add]
  norm_num
example : worldToScreen189 0 0 (-10) {m11 := 1} {m11 := 1} 1920 1080 = none := by
  simp only [worldToScreen189, wts189W, zero_mul, mul_zero, mul_one, one_mul,
    add_zero, zero_add]
  norm_num

/-! ## StripMinecraftFormatting (bridge.cpp lines 1322-1341)

The function walks the raw UTF-8 bytes of the name, skipping section-sign
formatting sequences (`0xC2 0xA7` plus the following format-code byte, or a
raw `0xA7` plus the following byte), keeping only printable ASCII, and
truncating to 96 bytes.  Byte strings are modelled as `List Nat`. -/

/-- The skipping/filtering loop of `StripMinecraftFormatting` (everything
before the final `resize(96)`).  The first arm needs a byte at `i + 2`
(`i + 2 < in.size()`), exactly as the pattern requires three elements. -/
def stripMCBytes : List Nat → List Nat
  | 0xC2 :: 0xA7 :: _ :: rest => stripMCBytes rest
  | 0xA7 :: _ :: rest => stripMCBytes rest
  | b :: rest => if 32 ≤ b ∧ b ≤ 126 then b :: stripMCBytes rest else stripMCBytes rest
  | [] => []

/-- The `StripMinecraftFormatting` of bridge.cpp. -/
def stripMinecraftFormatting (l : List Nat) : List Nat :=
  (stripMCBytes l).take 96

/-- bridge.cpp line 2126: the name drawn over an entity in `RenderNametags`. -/
def renderNametagDisplayName (raw : List Nat) : List Nat :=
  stripMinecraftFormatting raw

/-- bridge.cpp line 2381: the name shown by `RenderClosestPlayerInfo`. -/
def closestPlayerDisplayName (raw : List Nat) : List Nat :=
  stripMinecraftFormatting raw

/-- bridge.cpp line 1610: the held-item display name used by
`GetHeldItemInfoFromStack`. -/
def heldItemDisplayName (raw : List Nat) : List Nat :=
  stripMinecraftFormatting raw

/-! ## Root-singleton discovery scan (bridge.cpp 325-359, bridge_121.cpp 2646-2702)

A loaded class is modelled by its name and declared fields.  Reflection
failures while reading a field (which make the source `continue`) are not
modelled: every field descriptor is readable. -/

/-- One declared field of a host class. -/
structure FieldDesc where
  isStatic : Bool
  typeName : List Char
  deriving DecidableEq, Repr

/-- One loaded host class. -/
structure HostClass where
  name : List Char
  fields : List FieldDesc
  deriving DecidableEq, Repr

/-- The class has a static field whose declared type is the class itself. -/
def hasSelfStatic (c : HostClass) : Bool :=
  c.fields.any fun f => f.isStatic && f.typeName == c.name

/-- Number of non-static declared fields (`objCount` in the source). -/
def objCount (c : HostClass) : Nat :=
  (c.fields.filter fun f => !f.isStatic).length

/-- Namespace prefixes skipped by the 1.8.9 scan, plus the array check. -/
def skipName189 (n : List Char) : Bool :=
  matchesAt "java.".toList n || matchesAt "sun.".toList n ||
  matchesAt "javax.".toList n || matchesAt "com.sun.".toList n ||
  matchesAt "org.".toList n || matchesAt "jdk.".toList n ||
  matchesAt "com.google.".toList n || matchesAt "io.".toList n ||
  n.getD 0 '\x00' == '['

/-- Namespace prefixes skipped by the 1.21 scan (1.8.9's plus launcher ones). -/
def skipName121 (n : List Char) : Bool :=
  skipName189 n || matchesAt "com.moonsworth.".toList n ||
  matchesAt "com.lunarclient.".toList n || matchesAt "lunar.".toList n

/-- A class qualifies as root candidate in the 1.8.9 scan. -/
def qualifies189 (c : HostClass) : Bool :=
  !skipName189 c.name && hasSelfStatic c && objCount c > 15

/-- A class qualifies as root candidate in the 1.21 scan. -/
def qualifies121 (c : HostClass) : Bool :=
  !skipName121 c.name && hasSelfStatic c && objCount c > 15

/-- Test for `name.find("net.minecraft") == 0`. -/
def isMcName (n : List Char) : Bool :=
  matchesAt "net.minecraft".toList n

/-- The 1.8.9 root scan (bridge.cpp 325-359): the first qualifying class in
loaded-class-table order wins (`break` on first match). -/
def scanRoot189 : List HostClass → Option HostClass
  | [] => none
  | c :: rest => if qualifies189 c then some c else scanRoot189 rest

/-- Accumulator loop of the 1.21 root scan (bridge_121.cpp 2646-2702): keep a
best candidate; a new qualifier replaces it iff there is none yet, or the new
one is `net.minecraft`-named and the best is not, or it has strictly more
fields and the best is not `net.minecraft`-named. -/
def scan121Go : Option HostClass → List HostClass → Option HostClass
  | best, [] => best
  | best, c :: rest =>
      if qualifies121 c then
        match best with
        | none => scan121Go (some c) rest
        | some b =>
            let better := (isMcName c.name && !isMcName b.name) ||
              (decide (objCount c > objCount b) && !isMcName b.name)
            scan121Go (some (if better then c else b)) rest
      else scan121Go best rest

/-- The 1.21 root scan (`DiscoverJniMappings`, singleton-pattern fallback). -/
def scanRoot121 (cs : List HostClass) : Option HostClass :=
  scan121Go none cs

/-! ## DiscoverMappings cache discipline, 1.8.9 bridge (bridge.cpp 566-606, 779-839)

The global accessor cache and one discovery pass over it.  Handles are opaque
`Nat` identifiers.  `HostEnv189` records what the host's reflection returns
for each probe during one pass; a pass is a function from the cache to the
cache.  Guard structure mirrors the source: the world/list roles are
(re)assigned unconditionally whenever their enclosing block runs, while the
hierarchy-walk roles are probed only under `if (!g_role)`. -/

/-- The accessor cache populated by `DiscoverMappings` (subset of roles). -/
structure Cache189 where
  mcClass : Option Nat := none
  mcInstance : Option Nat := none
  theWorld : Option Nat := none
  playerEntities : Option Nat := none
  loadedTileEntityList : Option Nat := none
  rotationYaw : Option Nat := none
  rotationPitch : Option Nat := none
  nameMethod : Option Nat := none
  heldItemMethod : Option Nat := none
  totalArmorMethod : Option Nat := none
  lastTickPosX : Option Nat := none
  lastTickPosY : Option Nat := none
  lastTickPosZ : Option Nat := none
  deriving DecidableEq, Repr

/-- What the host returns to one 1.8.9 discovery pass. -/
structure HostEnv189 where
  root : Option (Nat × Nat) := none       -- (mcClass, mcInstance); none = pass aborts
  worldScan : Option Nat := none           -- first WorldClient-typed declared field
  theWorldByName : Option Nat := none      -- GetFieldID("theWorld") / ("field_71441_e")
  worldObjPresent : Bool := false          -- GetObjectField(mc, theWorld) non-null
  playerEntitiesByName : Option Nat := none
  tileEntityListByName : Option Nat := none
  rotationYawProbe : Option Nat := none
  rotationPitchProbe : Option Nat := none
  nameMethodProbe : Option Nat := none
  heldItemMethodProbe : Option Nat := none
  totalArmorMethodProbe : Option Nat := none
  lastTickPosXProbe : Option Nat := none
  lastTickPosYProbe : Option Nat := none
  lastTickPosZProbe : Option Nat := none
  deriving DecidableEq, Repr

/-- Model of `if (!g_role) g_role = probe;`: overwrite only while unresolved. -/
def keepOr (cur probe : Option Nat) : Option Nat :=
  match cur with
  | some h => some h
  | none => probe

/-- One `DiscoverMappings` pass (bridge.cpp).  If root discovery fails the
pass returns early and the cache is untouched.  Otherwise `g_mcClass`,
`g_mcInstance` are reassigned unconditionally; `g_theWorldField` is
overwritten by the declared-field scan when it hits, with the name probes
guarded by `if (!g_theWorldField)`; `g_playerEntitiesField` and
`g_loadedTileEntityListField` are reassigned unconditionally whenever the
world object is present; the hierarchy-walk roles are all guarded by
`if (!g_role)`. -/
def discoverMappings189 (e : HostEnv189) (c : Cache189) : Cache189 :=
  match e.root with
  | none => c
  | some (mc, inst) =>
      let theWorld :=
        match e.worldScan with
        | some h => some h
        | none => keepOr c.theWorld e.theWorldByName
      let (pe, tel) :=
        if theWorld.isSome && e.worldObjPresent then
          (e.playerEntitiesByName, e.tileEntityListByName)
        else (c.playerEntities, c.loadedTileEntityList)
      { mcClass := some mc
        mcInstance := some inst
        theWorld := theWorld
        playerEntities := pe
        loadedTileEntityList := tel
        rotationYaw := keepOr c.rotationYaw e.rotationYawProbe
        rotationPitch := keepOr c.rotationPitch e.rotationPitchProbe
        nameMethod := keepOr c.nameMethod e.nameMethodProbe
        heldItemMethod := keepOr c.heldItemMethod e.heldItemMethodProbe
        totalArmorMethod := keepOr c.totalArmorMethod e.totalArmorMethodProbe
        lastTickPosX := keepOr c.lastTickPosX e.lastTickPosXProbe
        lastTickPosY := keepOr c.lastTickPosY e.lastTickPosYProbe
        lastTickPosZ := keepOr c.lastTickPosZ e.lastTickPosZProbe }

/-! ## DiscoverJniMappings retry policy, 1.21 bridge
(bridge_121.cpp 2591-3055 skeleton, retry loop in `MainThread` 4752-4758)

`DiscoverJniMappings` returns `false` from exactly five early-exit points
(no JVMTI, no game classloader, no root class, no singleton field, null
instance), all of which precede every role assignment except the guarded
`g_gameClassLoader` store.  On success it (re)assigns the remaining roles
unconditionally and returns `true`.  `MainThread` retries the pass up to 5
times with a fixed `Sleep(3000)` after each failure, breaking on success. -/

/-- The 1.21 accessor cache (subset of roles). -/
structure Cache121 where
  gameClassLoader : Option Nat := none
  mcClass : Option Nat := none
  mcInstance : Option Nat := none
  screenField : Option Nat := none
  setScreenMethod : Option Nat := none
  deriving DecidableEq, Repr

/-- What the host returns to one 1.21 discovery pass. -/
structure HostEnv121 where
  jvmtiOk : Bool := true
  loader : Option Nat := none
  mcRoot : Option Nat := none         -- known-name load or singleton scan
  singletonField : Option Nat := none
  instancePresent : Bool := false
  screenProbe : Option Nat := none
  setScreenProbe : Option Nat := none
  deriving DecidableEq, Repr

/-- One `DiscoverJniMappings` pass: `false` plus the (almost) untouched cache
on any early exit — only the `if (!g_gameClassLoader)` store may have
happened — and `true` plus the fully reassigned cache on success. -/
def discoverJniMappings (e : HostEnv121) (c : Cache121) : Bool × Cache121 :=
  if !e.jvmtiOk then (false, c)
  else
    match e.loader with
    | none => (false, c)
    | some ld =>
        let c1 := { c with gameClassLoader := keepOr c.gameClassLoader (some ld) }
        match e.mcRoot with
        | none => (false, c1)
        | some mc =>
            match e.singletonField with
            | none => (false, c1)
            | some _ =>
            if !e.instancePresent then (false, c1)
            else
              (true,
                { c1 with
                  mcClass := some mc
                  mcInstance := some 1
                  screenField := e.screenProbe
                  setScreenMethod := e.setScreenProbe })

/-- State of the `MainThread` retry loop: whether discovery has succeeded,
the cache, how many attempts ran, and the back-off sleeps performed. -/
structure RetryState where
  done : Bool
  cache : Cache121
  attempts : Nat
  delays : List Nat
  deriving DecidableEq, Repr

/-- One iteration of the bounded retry loop: break on success, otherwise
sleep 3000 ms and try again.  Here `envs k` is the host state seen by attempt
`k` (the host keeps loading between attempts). -/
def retryIter (envs : Nat → HostEnv121) (k : Nat) (s : RetryState) : RetryState :=
  if s.done then s
  else
    let (ok, c) := discoverJniMappings (envs k) s.cache
    if ok then ⟨true, c, s.attempts + 1, s.delays⟩
    else ⟨false, c, s.attempts + 1, s.delays ++ [3000]⟩

/-- The loop after `n` iterations, from the fresh cache. -/
def retryRun (envs : Nat → HostEnv121) : Nat → RetryState
  | 0 => ⟨false, {}, 0, []⟩
  | n + 1 => retryIter envs n (retryRun envs n)

/-- The retry loop as `MainThread` runs it: bound 5. -/
def mainThreadDiscovery (envs : Nat → HostEnv121) : RetryState :=
  retryRun envs 5

/-- Role-wise order on caches: every role resolved in `c` is resolved with the same
handle in `c'`. -/
def cacheLe121 (c c' : Cache121) : Prop :=
  (∀ h, c.gameClassLoader = some h → c'.gameClassLoader = some h) ∧
  (∀ h, c.mcClass = some h → c'.mcClass = some h) ∧
  (∀ h, c.mcInstance = some h → c'.mcInstance = some h) ∧
  (∀ h, c.screenField = some h → c'.screenField = some h) ∧
  (∀ h, c.setScreenMethod = some h → c'.setScreenMethod = some h)

/-! ## Host-method calls made by the render callback, 1.8.9 bridge
(bridge.cpp `HookedSwapBuffers` 3230-3275 → `RenderNametags` 2059-2103)

`HookedSwapBuffers` calls `RenderNametags` synchronously (under
`g_jniMutex`).  The model records the JNI *method invocations*
(`Call*Method`) that `RenderNametags` performs, in program order; plain
field reads (`Get*Field`) are not recorded, matching the spec's distinction.
The 64-entity and 40-tag caps only truncate the trace and are omitted. -/

/-- One reflective host-method invocation. -/
inductive HostCall where
  | listSize
  | listGet (i : Nat)
  | nameOf (i : Nat)
  | healthOf (i : Nat)
  | armorOf (i : Nat)
  | heldItemOf (i : Nat)
  | hashCodeOf (i : Nat)
  deriving DecidableEq, Repr

/-- Host state consumed by one `RenderNametags` frame. -/
structure RenderEnv189 where
  nametagsEnabled : Bool := false     -- g_config.nametags
  showArmor : Bool := true            -- g_config.nametagShowArmor
  mappingsReady : Bool := false       -- g_mapped, instance, matrix and list accessors
  nameResolved : Bool := true         -- g_getNameMethod != nullptr
  healthResolved : Bool := true       -- g_getHealthMethod != nullptr
  armorResolved : Bool := true        -- g_getTotalArmorValueMethod != nullptr
  hashResolved : Bool := true         -- g_objectHashCodeMethod != nullptr
  worldPresent : Bool := false
  listPresent : Bool := false
  playerPresent : Bool := false
  entityCount : Nat := 0
  entityNull : Nat → Bool := fun _ => false
  isSelf : Nat → Bool := fun _ => false
  drawable : Nat → Bool := fun _ => false  -- projected, within 48 blocks, on screen, name non-empty

/-- Method invocations for entity `i` of the loop body. -/
def entityCalls189 (e : RenderEnv189) (i : Nat) : List HostCall :=
  HostCall.listGet i ::
    (if e.entityNull i || e.isSelf i then []
     else
       (if e.nameResolved then [HostCall.nameOf i] else []) ++
       (if e.healthResolved then [HostCall.healthOf i] else []) ++
       (if e.drawable i then
          (if e.showArmor && e.armorResolved then [HostCall.armorOf i] else []) ++
          [HostCall.heldItemOf i] ++
          (if e.hashResolved then [HostCall.hashCodeOf i] else [])
        else []))

/-- The host-method invocations `RenderNametags` makes inside the
frame-presentation hook (empty only when the feature is off, mappings are
missing, or the world/list/local player are absent). -/
def renderNametagsCalls189 (e : RenderEnv189) : List HostCall :=
  if !e.nametagsEnabled then []
  else if !e.mappingsReady then []
  else if !e.worldPresent then []
  else if !e.listPresent then []
  else
    HostCall.listSize ::
      (if !e.playerPresent then []
       else ((List.range e.entityCount).map (entityCalls189 e)).flatten)

/-! ## Snapshot swap-publish vs. concurrent reader (bridge_121.cpp)

`UpdatePlayerListOverlay` (publish at 1026-1031) and `UpdateChestList`
(publish at 1977-1978) build a complete `localList` privately on the
background thread and publish it with a single `swap` under the list mutex.
The render thread copies the published list under the same mutex
(`playerSnap = g_playerList`).  Entries are tagged with the poll pass that
produced them (0 = previously published pass, 1 = the pass being built);
the reader copies element by element, so only the lock discipline prevents
it from seeing a mixed list. -/

inductive LockOwner where
  | free
  | writer
  | reader
  deriving DecidableEq, Repr

inductive WPhase where
  | building
  | locking
  | swapping
  | releasing
  | done
  deriving DecidableEq, Repr

inductive RPhase where
  | locking
  | copying
  | releasing
  | done
  deriving DecidableEq, Repr

/-- Shared state: the published list, the mutex, the writer building
`wLeft` more entries into its private `wLocal`, and the reader copying the
published list into `rBuf` one element at a time. -/
structure SnapState where
  published : List Nat
  lock : LockOwner
  wPhase : WPhase
  wLeft : Nat
  wLocal : List Nat
  rPhase : RPhase
  rIdx : Nat
  rBuf : List Nat
  deriving DecidableEq, Repr

/-- One step of the background (writer) thread: finish building the private
list, take the mutex, swap it into `published` in one step, release. -/
def wStep (s : SnapState) : SnapState :=
  match s.wPhase with
  | .building =>
      if s.wLeft == 0 then { s with wPhase := .locking }
      else { s with wLocal := s.wLocal ++ [1], wLeft := s.wLeft - 1 }
  | .locking =>
      if s.lock == .free then { s with lock := .writer, wPhase := .swapping } else s
  | .swapping => { s with published := s.wLocal, wLocal := s.published, wPhase := .releasing }
  | .releasing => { s with lock := .free, wPhase := .done }
  | .done => s

/-- One step of the render (reader) thread: take the mutex, copy the
published list element by element, release. -/
def rStep (s : SnapState) : SnapState :=
  match s.rPhase with
  | .locking =>
      if s.lock == .free then { s with lock := .reader, rPhase := .copying } else s
  | .copying =>
      if s.rIdx < s.published.length then
        { s with rBuf := s.rBuf ++ [s.published.getD s.rIdx 0], rIdx := s.rIdx + 1 }
      else { s with rPhase := .releasing }
  | .releasing => { s with lock := .free, rPhase := .done }
  | .done => s

/-- Run a schedule: `true` schedules the writer, `false` the reader. -/
def snapRun (sched : List Bool) (s : SnapState) : SnapState :=
  sched.foldl (fun st b => if b then wStep st else rStep st) s

/-- Initial state: pass 0 published `a` entries; the writer's new poll pass
will build `b` entries. -/
def snapInit (a b : Nat) : SnapState :=
  ⟨List.replicate a 0, .free, .building, b, [], .locking, 0, []⟩

/-! ## Remaining definitions used by the statements -/

/-- The smoothed nametag position over a run of frames: targets `p n`
(projected panel position) and entity distances `d n`; frame 0 is the first
sighting (`!smooth.init`). -/
def tagSmoothSeq (p : Nat → ℚ × ℚ) (d : Nat → ℚ) : Nat → TagSmooth
  | 0 => tagSmoothStep none (p 0).1 (p 0).2 (d 0)
  | n + 1 => tagSmoothStep (some (tagSmoothSeq p d n)) (p (n + 1)).1 (p (n + 1)).2 (d (n + 1))

/-- Epsilon-N convergence of a rational sequence. -/
def TendsToQ (u : Nat → ℚ) (l : ℚ) : Prop :=
  ∀ ε : ℚ, 0 < ε → ∃ N, ∀ n, N ≤ n → |u n - l| < ε

/-- A synthetic root candidate: a static field of the class's own type plus
`n` non-static fields. -/
def mkRootClass (name : String) (n : Nat) : HostClass :=
  ⟨name.toList, ⟨true, name.toList⟩ :: (List.range n).map fun _ => ⟨false, "F".toList⟩⟩

/-- A frame in which nametags are enabled, discovery succeeded, the world,
entity list and local player are present, and one drawable entity exists. -/
def renderEnvDemo : RenderEnv189 :=
  { nametagsEnabled := true, mappingsReady := true, worldPresent := true,
    listPresent := true, playerPresent := true, entityCount := 1,
    drawable := fun _ => true }

/-! # Claims -/

/-! ## C1 — config partial-update semantics -/

/-- C1, counterexample.  The claim says a config message leaves every field
whose key is absent unchanged; in fact `ParseConfig` (both bridges)
overwrites the non-keybind fields unconditionally, so after enabling
nametags, the message `{"type":"config","armed":true}` alone turns nametags
back off (and resets minCPS to 0 from its default 10). -/
theorem c1_counterexample :
    (parseConfig121 nametagsOnMsg {}).nametags = true ∧
    (parseConfig121 armedOnlyMsg (parseConfig121 nametagsOnMsg {})).armed = true ∧
    (parseConfig121 armedOnlyMsg (parseConfig121 nametagsOnMsg {})).nametags = false ∧
    (parseConfig121 armedOnlyMsg (parseConfig121 nametagsOnMsg {})).minCPS = 0 ∧
    (parseConfig189 armedOnlyMsg { nametags := true }).nametags = false := by
  decide

/-- C1, amended: a `config` message replaces every non-keybind field
outright — absent boolean keys become `false`, absent numeric keys become 0,
absent string keys become empty.  Only bridge.cpp's four keybind fields
(guarded by `v >= 0`) and bridge_121.cpp's two clamped count fields and
`gtbCount` default (whose `getInt` default is the current value resp. 0)
survive; in particular `{"type":"config","armed":true}` sets `armed` and
resets everything else, keeping only the keybind/count fields. -/
theorem c1_amended (c : Config121) (d : Config189) :
    parseConfig121 armedOnlyMsg c =
      { armed := true, clicking := false, minCPS := 0, maxCPS := 0, jitter := false,
        clickInChests := false, aimAssist := false, nametags := false, chestEsp := false,
        closestPlayer := false, nametagHealth := false, nametagArmor := false,
        nametagMaxCount := max 1 (min 20 c.nametagMaxCount),
        chestEspMaxCount := max 1 (min 20 c.chestEspMaxCount),
        rightClick := false, rightMinCPS := 0, rightMaxCPS := 0, rightBlockOnly := false,
        breakBlocks := false, gtbHelper := false, gtbCount := 0, gtbHint := [],
        gtbPreview := [] } ∧
    parseConfig189 armedOnlyMsg d =
      { d with
        armed := true, clicking := false, minCPS := 0, maxCPS := 0, leftClick := false,
        rightClick := false, rightMinCPS := 0, rightMaxCPS := 0, rightBlockOnly := false,
        jitter := false, clickInChests := false, nametags := false,
        closestPlayerInfo := false, nametagShowHealth := false,
        nametagShowArmor := false, chestEsp := false } := by
  exact ⟨rfl, rfl⟩

/-! ## C2 — host calls confined to the background thread -/

/-- C2, counterexample.  The claim says the render callback never invokes a
host method through the discovered accessors.  In bridge.cpp,
`HookedSwapBuffers` calls `RenderNametags` synchronously, and with nametags
enabled, mappings resolved and one drawable entity present that function
invokes `List.size`, `List.get`, `getName`, `getHealth`, `getTotalArmorValue`
and `hashCode` on the render thread. -/
theorem c2_counterexample :
    renderNametagsCalls189 renderEnvDemo ≠ [] ∧
    HostCall.listSize ∈ renderNametagsCalls189 renderEnvDemo ∧
    HostCall.listGet 0 ∈ renderNametagsCalls189 renderEnvDemo ∧
    HostCall.nameOf 0 ∈ renderNametagsCalls189 renderEnvDemo ∧
    HostCall.healthOf 0 ∈ renderNametagsCalls189 renderEnvDemo ∧
    HostCall.hashCodeOf 0 ∈ renderNametagsCalls189 renderEnvDemo := by
  decide

/-- C2, amended: only the 1.21 bridge's render callback is confined to
published snapshot data.  The 1.8.9 bridge's render callback itself performs
reflective host-method invocations — serialized against the network thread by
`g_jniMutex`, not moved off the render thread: whenever nametags are enabled,
mappings are resolved and the world and entity list are present, the
callback's frame invokes `List.size`, and `List.get`/`getName`/`getHealth`
for every entity when the local player is present. -/
theorem c2_amended (e : RenderEnv189)
    (h1 : e.nametagsEnabled = true) (h2 : e.mappingsReady = true)
    (h3 : e.worldPresent = true) (h4 : e.listPresent = true) :
    renderNametagsCalls189 e ≠ [] ∧
    HostCall.listSize ∈ renderNametagsCalls189 e ∧
    (∀ i, i < e.entityCount → e.playerPresent = true →
      HostCall.listGet i ∈ renderNametagsCalls189 e) := by
  have hcalls : renderNametagsCalls189 e =
      HostCall.listSize ::
        (if !e.playerPresent then []
         else ((List.range e.entityCount).map (entityCalls189 e)).flatten) := by
    simp [renderNametagsCalls189, h1, h2, h3, h4]
  refine ⟨by simp [hcalls], by simp [hcalls], ?_⟩
  intro i hi hp
  rw [hcalls]
  refine List.mem_cons_of_mem _ ?_
  rw [hp]
  simp only [Bool.not_true, Bool.false_eq_true, if_false]
  refine List.mem_flatten.2 ⟨entityCalls189 e i, List.mem_map_of_mem _ ?_, ?_⟩
  · exact List.mem_range.2 hi
  · simp [entityCalls189]

/-- C2, witness for the amended theorem at the concrete demo frame. -/
theorem c2_witness :
    renderNametagsCalls189 renderEnvDemo ≠ [] ∧
    HostCall.listGet 0 ∈ renderNametagsCalls189 renderEnvDemo := by
  have h := c2_amended renderEnvDemo rfl rfl rfl rfl
  exact ⟨h.1, h.2.2 0 (by decide) rfl⟩

/-! ## C3 — behind-camera points are rejected by both strategies -/

/-- C3.  Both matrix projectors return failure whenever the post-projection w
component is below their small positive epsilon (0.02 in bridge.cpp, 0.1 in
bridge_121.cpp), and the angle-reconstruction projector returns failure
whenever the forward component of the camera-relative offset is non-positive
(its non-finite guard is vacuous over exact rationals); none of them ever
produces a screen coordinate in these cases. -/
theorem c3_behind_camera_rejected :
    (∀ x y z view proj w h, wts189W x y z view proj < 2 / 100 →
      worldToScreen189 x y z view proj w h = none) ∧
    (∀ pos camPos view proj winW winH, wts121W pos camPos view proj < 1 / 10 →
      worldToScreen121 pos camPos view proj winW winH = none) ∧
    (∀ sinf cosf tanf sqrtf worldPos camPos yawDeg pitchDeg fovDeg winW winH,
      anglesVFwd sinf cosf worldPos camPos yawDeg pitchDeg ≤ 0 →
      worldToScreenAngles sinf cosf tanf sqrtf worldPos camPos yawDeg pitchDeg fovDeg
        winW winH = none) := by
  refine ⟨?_, ?_, ?_⟩
  · intro x y z view proj w h hw
    simp only [worldToScreen189]
    rw [if_pos hw]
  · intro pos camPos view proj winW winH hw
    simp only [worldToScreen121]
    rw [if_pos hw]
  · intro sinf cosf tanf sqrtf worldPos camPos yawDeg pitchDeg fovDeg winW winH hf
    simp only [worldToScreenAngles]
    rw [if_pos (lt_of_le_of_lt hf (by norm_num))]

/-- C3, witness: the point (0,0,-10) directly behind a camera at the origin
is rejected by all three projectors.  With `view.m11 = 1`, `proj.m15 = 1` the
w component is exactly -10; with yaw = pitch = 0 the forward component is
exactly -10. -/
theorem c3_witness :
    worldToScreen189 0 0 (-10) { m11 := 1 } { m15 := 1 } 1920 1080 = none ∧
    worldToScreen121 ⟨0, 0, -10⟩ ⟨0, 0, 0⟩ { m11 := 1 } { m15 := 1 } 1920 1080 = none ∧
    worldToScreenAngles (fun _ => 0) (fun _ => 1) (fun _ => 1) (fun x => x)
      ⟨0, 0, -10⟩ ⟨0, 0, 0⟩ 0 0 70 1920 1080 = none := by
  have hneg : (-10 : ℚ) < 2 / 100 :=
    lt_trans (by decide) (div_pos (by decide) (by decide))
  have hneg1 : (-10 : ℚ) < 1 / 10 :=
    lt_trans (by decide) (div_pos (by decide) (by decide))
  have h189 : wts189W 0 0 (-10) { m11 := 1 } { m15 := 1 } = -10 := by
    simp [wts189W]
  have h121 : wts121W ⟨0, 0, -10⟩ ⟨0, 0, 0⟩ { m11 := 1 } { m15 := 1 } = -10 := by
    simp [wts121W]
  have hang : anglesVFwd (fun _ => 0) (fun _ => 1) ⟨0, 0, -10⟩ ⟨0, 0, 0⟩ 0 0 = -10 := by
    simp [anglesVFwd]
  have hw189 : wts189W 0 0 (-10) { m11 := 1 } { m15 := 1 } < 2 / 100 := by
    rw [h189]; exact hneg
  have hw121 : wts121W ⟨0, 0, -10⟩ ⟨0, 0, 0⟩ { m11 := 1 } { m15 := 1 } < 1 / 10 := by
    rw [h121]; exact hneg1
  have hwang : anglesVFwd (fun _ => 0) (fun _ => 1) ⟨0, 0, -10⟩ ⟨0, 0, 0⟩ 0 0 ≤ 0 := by
    rw [hang]; decide
  exact ⟨c3_behind_camera_rejected.1 _ _ _ _ _ _ _ hw189,
    c3_behind_camera_rejected.2.1 _ _ _ _ _ _ hw121,
    c3_behind_camera_rejected.2.2 _ _ _ _ _ _ _ _ _ _ _ hwang⟩

/-! ## C5 — straight-ahead point projects to the screen center -/

/-- C5.  For camera (0,0,0), yaw 0°, pitch 0°, vertical FOV 70° and a
1920x1080 viewport, the angle-reconstruction projector maps the point
(0,0,10) directly ahead to exactly the screen center (960, 540), for any
libm implementation with `sin 0 = 0`, `cos 0 = 1`, `sqrt 1 = 1` (the lateral
components vanish, so the tangent of the half-FOV cancels out). -/
theorem c5_center_projection (sinf cosf tanf sqrtf : ℚ → ℚ)
    (hs : sinf 0 = 0) (hc : cosf 0 = 1) (hq : sqrtf 1 = 1) :
    worldToScreenAngles sinf cosf tanf sqrtf ⟨0, 0, 10⟩ ⟨0, 0, 0⟩ 0 0 70 1920 1080 =
      some (960, 540) := by
  simp only [worldToScreenAngles, anglesVFwd, zero_mul, hs, hc, neg_zero, mul_zero,
    mul_one, one_mul, zero_sub, sub_zero, neg_neg, add_zero, zero_add]
  rw [hq]
  norm_num

/-- C5, witness at a concrete libm instantiation. -/
theorem c5_witness :
    worldToScreenAngles (fun _ => 0) (fun _ => 1) (fun _ => 1) (fun x => x)
      ⟨0, 0, 10⟩ ⟨0, 0, 0⟩ 0 0 70 1920 1080 = some (960, 540) :=
  c5_center_projection (fun _ => 0) (fun _ => 1) (fun _ => 1) (fun x => x) rfl rfl rfl

/-- Applying `keepOr` to an already-resolved handle keeps it. -/
theorem keepOr_some (h : Nat) (p : Option Nat) : keepOr (some h) p = some h := rfl

/-- Applying `keepOr` to an unresolved handle takes the probe. -/
theorem keepOr_none (p : Option Nat) : keepOr none p = p := rfl

/-- Re-probing with the same probe is a no-op. -/
theorem keepOr_idem (x p : Option Nat) : keepOr (keepOr x p) p = keepOr x p := by
  cases x <;> cases p <;> rfl

/-! ## C4 — discovery overwrite discipline -/

/-- C4, counterexample.  The claim says every role's cached handle is
overwritten only while unresolved, so a repeated pass never changes a
resolved accessor.  In bridge.cpp the world/list roles are re-assigned
unconditionally on every pass: running the pass a second time against a host
whose declared-field scan now yields a different field (the loaded-class
table of a live JVM changes between passes) replaces the resolved
`g_theWorldField` handle. -/
theorem c4_counterexample :
    (discoverMappings189 { root := some (1, 1), worldScan := some 10 } {}).theWorld =
      some 10 ∧
    (discoverMappings189 { root := some (1, 1), worldScan := some 20 }
        (discoverMappings189 { root := some (1, 1), worldScan := some 10 } {})).theWorld =
      some 20 := by
  decide

/-- C4, amended: the hierarchy-walk roles (rotation fields, `getName`,
`getHeldItem`, `getTotalArmorValue`, lastTickPos fields) are guarded by
`if (!g_role)` and so are overwritten only while unresolved — a pass
preserves them once resolved, whatever the host returns; the root and
world/list roles are re-resolved unconditionally each pass, so they are
stable only because a pass is deterministic in the host state: against an
unchanged host, running the pass a second time is a no-op on the whole
cache. -/
theorem c4_amended (e : HostEnv189) (c : Cache189) :
    (∀ hdl, c.rotationYaw = some hdl → (discoverMappings189 e c).rotationYaw = some hdl) ∧
    (∀ hdl, c.rotationPitch = some hdl → (discoverMappings189 e c).rotationPitch = some hdl) ∧
    (∀ hdl, c.nameMethod = some hdl → (discoverMappings189 e c).nameMethod = some hdl) ∧
    (∀ hdl, c.heldItemMethod = some hdl → (discoverMappings189 e c).heldItemMethod = some hdl) ∧
    (∀ hdl, c.totalArmorMethod = some hdl →
      (discoverMappings189 e c).totalArmorMethod = some hdl) ∧
    (∀ hdl, c.lastTickPosX = some hdl → (discoverMappings189 e c).lastTickPosX = some hdl) ∧
    (∀ hdl, c.lastTickPosY = some hdl → (discoverMappings189 e c).lastTickPosY = some hdl) ∧
    (∀ hdl, c.lastTickPosZ = some hdl → (discoverMappings189 e c).lastTickPosZ = some hdl) ∧
    discoverMappings189 e (discoverMappings189 e c) = discoverMappings189 e c := by
  obtain ⟨root, worldScan, byName, present, pe, tel, p1, p2, p3, p4, p5, p6, p7, p8⟩ := e
  cases root with
  | none =>
      refine ⟨?_, ?_, ?_, ?_, ?_, ?_, ?_, ?_, rfl⟩ <;>
        · intro hdl hh
          simpa [discoverMappings189] using hh
  | some r =>
      obtain ⟨mc, inst⟩ := r
      refine ⟨?_, ?_, ?_, ?_, ?_, ?_, ?_, ?_, ?_⟩
      · intro hdl hh; simp [discoverMappings189, keepOr, hh]
      · intro hdl hh; simp [discoverMappings189, keepOr, hh]
      · intro hdl hh; simp [discoverMappings189, keepOr, hh]
      · intro hdl hh; simp [discoverMappings189, keepOr, hh]
      · intro hdl hh; simp [discoverMappings189, keepOr, hh]
      · intro hdl hh; simp [discoverMappings189, keepOr, hh]
      · intro hdl hh; simp [discoverMappings189, keepOr, hh]
      · intro hdl hh; simp [discoverMappings189, keepOr, hh]
      · -- idempotence against a fixed host environment
        cases worldScan with
        | some w =>
            cases present <;>
              simp [discoverMappings189, keepOr_some, keepOr_none, keepOr_idem]
        | none =>
            cases hct : c.theWorld with
            | some t =>
                cases present <;>
                  simp [discoverMappings189, keepOr_some, keepOr_none, keepOr_idem, hct]
            | none =>
                cases byName <;> cases present <;>
                  simp [discoverMappings189, keepOr_some, keepOr_none, keepOr_idem, hct]

/-- C4, witness for the amended theorem: a cache with `rotationYaw` already
resolved keeps it across a pass, and a pass against a fixed host is
idempotent at a concrete environment. -/
theorem c4_witness :
    (discoverMappings189 { root := some (1, 1), rotationYawProbe := some 9 }
        { rotationYaw := some 5 }).rotationYaw = some 5 ∧
    discoverMappings189 { root := some (1, 1), worldScan := some 10 }
        (discoverMappings189 { root := some (1, 1), worldScan := some 10 } {}) =
      discoverMappings189 { root := some (1, 1), worldScan := some 10 } {} :=
  ⟨(c4_amended { root := some (1, 1), rotationYawProbe := some 9 }
      { rotationYaw := some 5 }).1 5 rfl,
   (c4_amended { root := some (1, 1), worldScan := some 10 } {}).2.2.2.2.2.2.2.2⟩

/-! ## C6 — root-singleton candidate selection -/

/-- Once the running best is `net.minecraft`-named, no later candidate ever
replaces it (both replacement conditions require the best not to be). -/
theorem scan121Go_mc_fixed (b : HostClass) (hb : isMcName b.name = true) :
    ∀ cs, scan121Go (some b) cs = some b := by
  intro cs
  induction cs with
  | nil => rfl
  | cons c rest ih =>
      by_cases hq : qualifies121 c
      · simpa [scan121Go, hq, hb] using ih
      · simpa [scan121Go, hq] using ih

/-- While the best is not `net.minecraft`-named, the scan returns the first
`net.minecraft`-named qualifier of the remaining list if one exists. -/
theorem scan121Go_first_mc :
    ∀ (cs : List HostClass) (b m : HostClass), isMcName b.name = false →
      cs.find? (fun c => qualifies121 c && isMcName c.name) = some m →
      scan121Go (some b) cs = some m := by
  intro cs
  induction cs with
  | nil => intro b m _ h; simp at h
  | cons c rest ih =>
      intro b m hb hf
      by_cases hq : qualifies121 c
      · by_cases hmc : isMcName c.name = true
        · have hm : c = m := by
            simp [List.find?_cons, hq, hmc] at hf
            exact hf
          have hbetter : (isMcName c.name && !isMcName b.name ||
              (decide (objCount c > objCount b) && !isMcName b.name)) = true := by
            simp [hmc, hb]
          calc scan121Go (some b) (c :: rest)
              = scan121Go (some c) rest := by simp [scan121Go, hq, hbetter]
            _ = some c := scan121Go_mc_fixed c hmc rest
            _ = some m := by rw [hm]
        · have hmc' : isMcName c.name = false := by simpa using hmc
          have hf' : rest.find? (fun c => qualifies121 c && isMcName c.name) = some m := by
            simpa [List.find?_cons, hq, hmc'] using hf
          by_cases hgt : objCount b < objCount c
          · have : scan121Go (some b) (c :: rest) = scan121Go (some c) rest := by
              simp [scan121Go, hq, hmc', hb, hgt]
            rw [this]
            exact ih c m hmc' hf'
          · have : scan121Go (some b) (c :: rest) = scan121Go (some b) rest := by
              simp [scan121Go, hq, hmc', hb, hgt]
            rw [this]
            exact ih b m hb hf'
      · have hq' : qualifies121 c = false := by simpa using hq
        have hf' : rest.find? (fun c => qualifies121 c && isMcName c.name) = some m := by
          simpa [List.find?_cons, hq'] using hf
        simpa [scan121Go, hq'] using ih b m hb hf'

/-- From a non-`net.minecraft` best, the scan yields a qualifier whose field
count dominates the best's and every qualifier's in the remaining list,
provided no remaining qualifier is `net.minecraft`-named. -/
theorem scan121Go_max :
    ∀ (cs : List HostClass) (b : HostClass), qualifies121 b = true →
      isMcName b.name = false →
      (∀ c ∈ cs, qualifies121 c = true → isMcName c.name = false) →
      ∃ r, scan121Go (some b) cs = some r ∧ qualifies121 r = true ∧
        objCount b ≤ objCount r ∧
        ∀ c ∈ cs, qualifies121 c = true → objCount c ≤ objCount r := by
  intro cs
  induction cs with
  | nil => intro b hqb _ _; exact ⟨b, rfl, hqb, le_refl _, by simp⟩
  | cons c rest ih =>
      intro b hqb hmb hall
      by_cases hq : qualifies121 c
      · have hmc : isMcName c.name = false := hall c (List.mem_cons_self c rest) hq
        by_cases hgt : objCount b < objCount c
        · obtain ⟨r, hr, hqr, hbr, hallr⟩ :=
            ih c hq hmc (fun d hd hqd => hall d (List.mem_cons_of_mem _ hd) hqd)
          refine ⟨r, ?_, hqr, le_trans (le_of_lt hgt) hbr, ?_⟩
          · simpa [scan121Go, hq, hmb, hmc, hgt] using hr
          · intro d hd hqd
            rcases List.mem_cons.1 hd with hdc | hdr
            · exact hdc ▸ hbr
            · exact hallr d hdr hqd
        · obtain ⟨r, hr, hqr, hbr, hallr⟩ :=
            ih b hqb hmb (fun d hd hqd => hall d (List.mem_cons_of_mem _ hd) hqd)
          refine ⟨r, ?_, hqr, hbr, ?_⟩
          · simpa [scan121Go, hq, hmb, hmc, hgt] using hr
          · intro d hd hqd
            rcases List.mem_cons.1 hd with hdc | hdr
            · exact hdc ▸ le_trans (le_of_not_lt hgt) hbr
            · exact hallr d hdr hqd
      · have hq' : qualifies121 c = false := by simpa using hq
        obtain ⟨r, hr, hqr, hbr, hallr⟩ :=
          ih b hqb hmb (fun d hd hqd => hall d (List.mem_cons_of_mem _ hd) hqd)
        refine ⟨r, by simpa [scan121Go, hq'] using hr, hqr, hbr, ?_⟩
        intro d hd hqd
        rcases List.mem_cons.1 hd with hdc | hdr
        · rw [hdc] at hqd; rw [hqd] at hq'; cases hq'
        · exact hallr d hdr hqd

/-- When every qualifier of the list equals `b`, the scan keeps `b`. -/
theorem scan121Go_unique :
    ∀ (cs : List HostClass) (b : HostClass),
      (∀ c ∈ cs, qualifies121 c = true → c = b) → scan121Go (some b) cs = some b := by
  intro cs
  induction cs with
  | nil => intro b _; rfl
  | cons c rest ih =>
      intro b huniq
      by_cases hq : qualifies121 c
      · have hc : c = b := huniq c (List.mem_cons_self c rest) hq
        subst hc
        have : (isMcName c.name && !isMcName c.name ||
            (decide (objCount c > objCount c) && !isMcName c.name)) = false := by
          simp [lt_irrefl]
        simp only [scan121Go, hq, if_pos, this, Bool.false_eq_true, if_neg,
          not_false_eq_true]
        exact ih c fun d hd hqd => huniq d (List.mem_cons_of_mem _ hd) hqd
      · have hq' : qualifies121 c = false := by simpa using hq
        simpa [scan121Go, hq'] using
          ih b fun d hd hqd => huniq d (List.mem_cons_of_mem _ hd) hqd

/-- The full 1.21 scan returns the first `net.minecraft`-named qualifier when
one exists. -/
theorem scanRoot121_first_mc :
    ∀ (cs : List HostClass) (m : HostClass),
      cs.find? (fun c => qualifies121 c && isMcName c.name) = some m →
      scanRoot121 cs = some m := by
  intro cs
  induction cs with
  | nil => intro m h; simp at h
  | cons c rest ih =>
      intro m hf
      by_cases hq : qualifies121 c
      · by_cases hmc : isMcName c.name = true
        · have hm : c = m := by
            simp [List.find?_cons, hq, hmc] at hf
            exact hf
          calc scanRoot121 (c :: rest)
              = scan121Go (some c) rest := by simp [scanRoot121, scan121Go, hq]
            _ = some c := scan121Go_mc_fixed c hmc rest
            _ = some m := by rw [hm]
        · have hmc' : isMcName c.name = false := by simpa using hmc
          have hf' : rest.find? (fun c => qualifies121 c && isMcName c.name) = some m := by
            simpa [List.find?_cons, hq, hmc'] using hf
          have : scanRoot121 (c :: rest) = scan121Go (some c) rest := by
            simp [scanRoot121, scan121Go, hq]
          rw [this]
          exact scan121Go_first_mc rest c m hmc' hf'
      · have hq' : qualifies121 c = false := by simpa using hq
        have hf' : rest.find? (fun c => qualifies121 c && isMcName c.name) = some m := by
          simpa [List.find?_cons, hq'] using hf
        have : scanRoot121 (c :: rest) = scanRoot121 rest := by
          simp [scanRoot121, scan121Go, hq']
        rw [this]
        exact ih m hf'

/-- When no qualifier is `net.minecraft`-named, the 1.21 scan's choice
dominates every qualifier's field count. -/
theorem scanRoot121_max :
    ∀ cs : List HostClass,
      (∀ c ∈ cs, qualifies121 c = true → isMcName c.name = false) →
      ∀ b ∈ cs, qualifies121 b = true →
        ∃ r, scanRoot121 cs = some r ∧ qualifies121 r = true ∧
          objCount b ≤ objCount r := by
  intro cs
  induction cs with
  | nil => intro _ b hb; simp at hb
  | cons c rest ih =>
      intro hall b hb hqb
      by_cases hq : qualifies121 c
      · have hmc : isMcName c.name = false := hall c (List.mem_cons_self c rest) hq
        obtain ⟨r, hr, hqr, hcr, hallr⟩ :=
          scan121Go_max rest c hq hmc
            (fun d hd hqd => hall d (List.mem_cons_of_mem _ hd) hqd)
        have hrun : scanRoot121 (c :: rest) = some r := by
          have : scanRoot121 (c :: rest) = scan121Go (some c) rest := by
            simp [scanRoot121, scan121Go, hq]
          rw [this, hr]
        rcases List.mem_cons.1 hb with hbc | hbr
        · exact ⟨r, hrun, hqr, hbc ▸ hcr⟩
        · exact ⟨r, hrun, hqr, hallr b hbr hqb⟩
      · have hq' : qualifies121 c = false := by simpa using hq
        have hbr : b ∈ rest := by
          rcases List.mem_cons.1 hb with hbc | hbr
          · rw [hbc] at hqb; rw [hqb] at hq'; cases hq'
          · exact hbr
        obtain ⟨r, hr, hqr, hbrle⟩ :=
          ih (fun d hd hqd => hall d (List.mem_cons_of_mem _ hd) hqd) b hbr hqb
        refine ⟨r, ?_, hqr, hbrle⟩
        have : scanRoot121 (c :: rest) = scanRoot121 rest := by
          simp [scanRoot121, scan121Go, hq']
        rw [this]
        exact hr

/-- The 1.21 scan selects the unique qualifier when exactly one class
qualifies. -/
theorem scanRoot121_unique :
    ∀ (cs : List HostClass) (m : HostClass), m ∈ cs → qualifies121 m = true →
      (∀ c ∈ cs, qualifies121 c = true → c = m) → scanRoot121 cs = some m := by
  intro cs
  induction cs with
  | nil => intro m hm; simp at hm
  | cons c rest ih =>
      intro m hm hqm huniq
      by_cases hq : qualifies121 c
      · have hc : c = m := huniq c (List.mem_cons_self c rest) hq
        subst hc
        have : scanRoot121 (c :: rest) = scan121Go (some c) rest := by
          simp [scanRoot121, scan121Go, hq]
        rw [this]
        exact scan121Go_unique rest c
          fun d hd hqd => huniq d (List.mem_cons_of_mem _ hd) hqd
      · have hq' : qualifies121 c = false := by simpa using hq
        have hmr : m ∈ rest := by
          rcases List.mem_cons.1 hm with hmc | hmr
          · rw [← hmc] at hq'; rw [hqm] at hq'; cases hq'
          · exact hmr
        have : scanRoot121 (c :: rest) = scanRoot121 rest := by
          simp [scanRoot121, scan121Go, hq']
        rw [this]
        exact ih m hmr hqm
          fun d hd hqd => huniq d (List.mem_cons_of_mem _ hd) hqd

/-- The 1.8.9 scan is first-match. -/
theorem scanRoot189_find :
    ∀ cs : List HostClass, scanRoot189 cs = cs.find? fun c => qualifies189 c := by
  intro cs
  induction cs with
  | nil => rfl
  | cons c rest ih =>
      by_cases hq : qualifies189 c
      · simp [scanRoot189, List.find?_cons, hq]
      · have hq' : qualifies189 c = false := by simpa using hq
        simp [scanRoot189, List.find?_cons, hq', ih]

/-- C6, counterexample.  The claim says discovery prefers the primary
namespace and otherwise the candidate with most fields, and in particular a
20-field self-typed-singleton class wins over any qualifying candidate with
fewer fields.  In the 1.21 scan two `net.minecraft` candidates are compared
by arrival order only (both replacement conditions require the current best
not to be `net.minecraft`-named), so a 16-field candidate scanned first beats
the 20-field one; the 1.8.9 scan takes the first qualifier outright. -/
theorem c6_counterexample :
    scanRoot121 [mkRootClass "net.minecraft.A" 16, mkRootClass "net.minecraft.B" 20] =
      some (mkRootClass "net.minecraft.A" 16) ∧
    objCount (mkRootClass "net.minecraft.A" 16) <
      objCount (mkRootClass "net.minecraft.B" 20) ∧
    hasSelfStatic (mkRootClass "net.minecraft.B" 20) = true ∧
    scanRoot189 [mkRootClass "alpha.A" 16, mkRootClass "alpha.B" 20] =
      some (mkRootClass "alpha.A" 16) := by
  decide

/-- C6, amended: the 1.8.9 scan simply takes the first qualifying class in
table order.  The 1.21 scan selects the *first* `net.minecraft`-named
qualifier when one exists (regardless of field counts); otherwise its choice
is a qualifier with a maximal field count; and when exactly one class
qualifies — e.g. the synthetic set whose only self-typed-singleton candidate
with more than 15 fields is the 20-field class — that class is selected. -/
theorem c6_amended :
    (∀ cs : List HostClass, scanRoot189 cs = cs.find? fun c => qualifies189 c) ∧
    (∀ (cs : List HostClass) (m : HostClass),
      cs.find? (fun c => qualifies121 c && isMcName c.name) = some m →
      scanRoot121 cs = some m) ∧
    (∀ cs : List HostClass,
      (∀ c ∈ cs, qualifies121 c = true → isMcName c.name = false) →
      ∀ b ∈ cs, qualifies121 b = true →
        ∃ r, scanRoot121 cs = some r ∧ qualifies121 r = true ∧
          objCount b ≤ objCount r) ∧
    (∀ (cs : List HostClass) (m : HostClass), m ∈ cs → qualifies121 m = true →
      (∀ c ∈ cs, qualifies121 c = true → c = m) → scanRoot121 cs = some m) :=
  ⟨scanRoot189_find, scanRoot121_first_mc, scanRoot121_max, scanRoot121_unique⟩

/-- C6, witness: the 20-field class is the unique qualifier of a synthetic
set (the other class declares only 10 fields) and is selected. -/
theorem c6_witness :
    scanRoot121 [mkRootClass "game.Util" 10, mkRootClass "game.Root" 20] =
      some (mkRootClass "game.Root" 20) ∧
    scanRoot121 [mkRootClass "other.Big" 18, mkRootClass "net.minecraft.MC" 16] =
      some (mkRootClass "net.minecraft.MC" 16) := by
  constructor
  · exact c6_amended.2.2.2 _ (mkRootClass "game.Root" 20) (by decide) (by decide)
      (by decide)
  · exact c6_amended.2.1 _ (mkRootClass "net.minecraft.MC" 16) (by decide)

/-! ## C7 — bounded discovery retry with fixed back-off -/

/-- Reflexivity of `cacheLe121`. -/
theorem cacheLe121_refl (c : Cache121) : cacheLe121 c c :=
  ⟨fun _ h => h, fun _ h => h, fun _ h => h, fun _ h => h, fun _ h => h⟩

/-- A failed discovery pass only (possibly) resolves the classloader: every
resolved role survives with its handle. -/
theorem discoverJni_le (e : HostEnv121) (c : Cache121)
    (hpre : (discoverJniMappings e c).1 = false ∨
      (c.mcClass = none ∧ c.mcInstance = none ∧ c.screenField = none ∧
        c.setScreenMethod = none)) :
    cacheLe121 c (discoverJniMappings e c).2 := by
  obtain ⟨jvmtiOk, loader, mcRoot, singletonField, instancePresent, sp, ssp⟩ := e
  cases jvmtiOk with
  | false => exact cacheLe121_refl c
  | true =>
      cases loader with
      | none => exact cacheLe121_refl c
      | some ld =>
          cases mcRoot with
          | none =>
              refine ⟨?_, ?_, ?_, ?_, ?_⟩ <;> intro h hh <;>
                simp_all [discoverJniMappings, keepOr]
          | some mc =>
              cases singletonField with
              | none =>
                  refine ⟨?_, ?_, ?_, ?_, ?_⟩ <;> intro h hh <;>
                    simp_all [discoverJniMappings, keepOr]
              | some sf =>
                  cases instancePresent with
                  | false =>
                      refine ⟨?_, ?_, ?_, ?_, ?_⟩ <;> intro h hh <;>
                        simp_all [discoverJniMappings, keepOr]
                  | true =>
                      rcases hpre with hfail | ⟨h1, h2, h3, h4⟩
                      · simp [discoverJniMappings] at hfail
                      · refine ⟨?_, ?_, ?_, ?_, ?_⟩ <;> intro h hh <;>
                          simp_all [discoverJniMappings, keepOr]

/-- As long as the retry loop has not succeeded, only the classloader role
can be resolved. -/
theorem retryRun_pre (envs : Nat → HostEnv121) :
    ∀ k, (retryRun envs k).done = false →
      (retryRun envs k).cache.mcClass = none ∧
      (retryRun envs k).cache.mcInstance = none ∧
      (retryRun envs k).cache.screenField = none ∧
      (retryRun envs k).cache.setScreenMethod = none := by
  intro k
  induction k with
  | zero => intro _; exact ⟨rfl, rfl, rfl, rfl⟩
  | succ n ih =>
      intro hdone
      by_cases hprev : (retryRun envs n).done
      · have : retryRun envs (n + 1) = retryRun envs n := by
          simp [retryRun, retryIter, hprev]
        rw [this] at hdone
        rw [hdone] at hprev
        cases hprev
      · have hprev' : (retryRun envs n).done = false := by simpa using hprev
        obtain ⟨h1, h2, h3, h4⟩ := ih hprev'
        have hstep : retryRun envs (n + 1) = retryIter envs n (retryRun envs n) := rfl
        rw [hstep] at hdone ⊢
        simp only [retryIter, hprev', Bool.false_eq_true, if_false] at hdone ⊢
        rcases he : envs n with ⟨jvmtiOk, loader, mcRoot, singletonField, instancePresent, sp, ssp⟩
        cases jvmtiOk <;> cases loader <;> cases mcRoot <;>
          cases singletonField <;> cases instancePresent <;>
          simp_all [discoverJniMappings, keepOr]

/-- C7.  The retry loop performs at most 5 attempts; every back-off delay it
sleeps is exactly 3000 ms; an attempt after success changes nothing (the loop
has broken, so discovery is never retried beyond the bound); and every role
resolved after `k` attempts is still resolved, with the same handle, after
`k + 1` attempts — across failed retries and the final success alike. -/
theorem c7_retry_policy (envs : Nat → HostEnv121) :
    (mainThreadDiscovery envs).attempts ≤ 5 ∧
    (∀ d ∈ (mainThreadDiscovery envs).delays, d = 3000) ∧
    (∀ k, (retryRun envs k).done = true → retryRun envs (k + 1) = retryRun envs k) ∧
    (∀ k, cacheLe121 (retryRun envs k).cache (retryRun envs (k + 1)).cache) := by
  have hattempts : ∀ k, (retryRun envs k).attempts ≤ k := by
    intro k
    induction k with
    | zero => exact le_refl 0
    | succ n ih =>
        have hstep : retryRun envs (n + 1) = retryIter envs n (retryRun envs n) := rfl
        rw [hstep]
        simp only [retryIter]
        by_cases hprev : (retryRun envs n).done
        · simpa [hprev] using Nat.le_succ_of_le ih
        · have hprev' : (retryRun envs n).done = false := by simpa using hprev
          rcases hok : (discoverJniMappings (envs n) (retryRun envs n).cache) with ⟨ok, c2⟩
          cases ok <;> simpa [hprev', hok] using Nat.succ_le_succ ih
  have hdelays : ∀ k, ∀ d ∈ (retryRun envs k).delays, d = 3000 := by
    intro k
    induction k with
    | zero => intro d hd; simp [retryRun] at hd
    | succ n ih =>
        intro d hd
        have hstep : retryRun envs (n + 1) = retryIter envs n (retryRun envs n) := rfl
        rw [hstep] at hd
        simp only [retryIter] at hd
        by_cases hprev : (retryRun envs n).done
        · rw [if_pos hprev] at hd
          exact ih d hd
        · have hprev' : (retryRun envs n).done = false := by simpa using hprev
          rcases hok : (discoverJniMappings (envs n) (retryRun envs n).cache) with ⟨ok, c2⟩
          rw [hok] at hd
          cases ok with
          | true =>
              simp only [hprev', Bool.false_eq_true, if_false, if_pos] at hd
              exact ih d hd
          | false =>
              simp only [hprev', Bool.false_eq_true, if_false] at hd
              rcases List.mem_append.1 hd with hd1 | hd2
              · exact ih d hd1
              · simpa using hd2
  refine ⟨hattempts 5, hdelays 5, ?_, ?_⟩
  · intro k hdone
    simp [retryRun, retryIter, hdone]
  · intro k
    by_cases hprev : (retryRun envs k).done
    · have : retryRun envs (k + 1) = retryRun envs k := by
        simp [retryRun, retryIter, hprev]
      rw [this]
      exact cacheLe121_refl _
    · have hprev' : (retryRun envs k).done = false := by simpa using hprev
      have hstep : retryRun envs (k + 1) = retryIter envs k (retryRun envs k) := rfl
      rw [hstep]
      simp only [retryIter, hprev', Bool.false_eq_true, if_false]
      have hle := discoverJni_le (envs k) (retryRun envs k).cache
        (Or.inr (retryRun_pre envs k hprev'))
      rcases hok : (discoverJniMappings (envs k) (retryRun envs k).cache) with ⟨ok, c2⟩
      rw [hok] at hle
      cases ok <;> simpa using hle

/-- C7, witness: against a host that never finishes initializing, the loop
runs its five attempts, sleeps 3000 ms between them, and a success on the
first attempt freezes the loop state. -/
theorem c7_witness :
    (mainThreadDiscovery fun _ => {}).attempts ≤ 5 ∧
    ((mainThreadDiscovery fun _ => {}).delays.getD 0 0 = 3000) ∧
    cacheLe121 (retryRun (fun _ => {}) 2).cache (retryRun (fun _ => {}) 3).cache := by
  refine ⟨(c7_retry_policy fun _ => {}).1, ?_, (c7_retry_policy fun _ => {}).2.2.2 2⟩
  have h := (c7_retry_policy fun _ => {}).2.1
  have hm : (3000 : Nat) ∈ (mainThreadDiscovery fun _ => {}).delays := by decide
  have := h 3000 hm
  decide

/-! ## C8 — overlay smoothing: snap on large jumps, convergence -/

/-- One exponential blend with factor between 0.12 and 0.22 shrinks the
distance to the target by at least the factor 0.88. -/
theorem blend_err (s p b : ℚ) (hb1 : 12 / 100 ≤ b) (hb2 : b ≤ 22 / 100) :
    |s + (p - s) * b - p| ≤ 88 / 100 * |s - p| := by
  have h : s + (p - s) * b - p = (1 - b) * (s - p) := by ring
  rw [h, abs_mul, abs_of_nonneg (by linarith : (0 : ℚ) ≤ 1 - b)]
  exact mul_le_mul_of_nonneg_right (by linarith) (abs_nonneg _)

/-- Every branch of bridge.cpp's smoothing update moves the accumulator to
within 0.88 of its previous distance to the target, per component. -/
theorem tagSmoothStep_err (t : TagSmooth) (px py dist : ℚ) :
    |(tagSmoothStep (some t) px py dist).x - px| ≤ 88 / 100 * |t.x - px| ∧
    |(tagSmoothStep (some t) px py dist).y - py| ≤ 88 / 100 * |t.y - py| := by
  simp only [tagSmoothStep]
  split
  · constructor <;>
      · simp only [sub_self, abs_zero]
        exact mul_nonneg (by norm_num) (abs_nonneg _)
  · split
    · exact ⟨blend_err t.x px _ (by norm_num) (by norm_num),
        blend_err t.y py _ (by norm_num) (by norm_num)⟩
    · split
      · exact ⟨blend_err t.x px _ (by norm_num) (by norm_num),
          blend_err t.y py _ (by norm_num) (by norm_num)⟩
      · exact ⟨blend_err t.x px _ (by norm_num) (by norm_num),
          blend_err t.y py _ (by norm_num) (by norm_num)⟩

/-- Convergence engine: a non-negative sequence satisfying
`e (n+1) ≤ 0.88 e n + 2 d (n+1)` with `d → 0` tends to 0. -/
theorem conv_engine (e d : Nat → ℚ) (he : ∀ n, 0 ≤ e n) (hd0 : ∀ n, 0 ≤ d n)
    (hrec : ∀ n, e (n + 1) ≤ 88 / 100 * e n + 2 * d (n + 1))
    (hd : TendsToQ d 0) : TendsToQ e 0 := by
  intro ε hε
  obtain ⟨N, hN⟩ := hd (ε / 100) (by linarith)
  have hdlt : ∀ n, N ≤ n → d n < ε / 100 := by
    intro n hn
    have := hN n hn
    rwa [sub_zero, abs_of_nonneg (hd0 n)] at this
  have key : ∀ k, e (N + k) ≤ (88 / 100 : ℚ) ^ k * e N + ε / 6 := by
    intro k
    induction k with
    | zero =>
        have h0 : (0 : ℚ) ≤ ε / 6 := by positivity
        simp only [Nat.add_zero, pow_zero, one_mul]
        linarith
    | succ k ih =>
        have h1 := hrec (N + k)
        have h2 : d (N + k + 1) < ε / 100 := hdlt (N + k + 1) (by omega)
        have h3 : (88 / 100 : ℚ) * e (N + k) ≤
            88 / 100 * ((88 / 100 : ℚ) ^ k * e N + ε / 6) :=
          mul_le_mul_of_nonneg_left ih (by norm_num)
        have h4 : (88 / 100 : ℚ) * ((88 / 100 : ℚ) ^ k * e N + ε / 6) + 2 * (ε / 100) =
            (88 / 100 : ℚ) ^ (k + 1) * e N + ε / 6 := by ring
        show e (N + k + 1) ≤ (88 / 100 : ℚ) ^ (k + 1) * e N + ε / 6
        linarith
  obtain ⟨k0, hk0⟩ := exists_pow_lt_of_lt_one
    (show (0 : ℚ) < ε / (2 * (e N + 1)) from
      div_pos hε (by have := he N; linarith))
    (by norm_num : (88 / 100 : ℚ) < 1)
  refine ⟨N + k0, fun n hn => ?_⟩
  have hsplit : N + (n - N) = n := by omega
  have hk : k0 ≤ n - N := by omega
  have hbound := key (n - N)
  rw [hsplit] at hbound
  have hq : (88 / 100 : ℚ) ^ (n - N) ≤ (88 / 100 : ℚ) ^ k0 :=
    pow_le_pow_of_le_one (by norm_num) (by norm_num) hk
  have hqe : (88 / 100 : ℚ) ^ (n - N) * e N ≤ (88 / 100 : ℚ) ^ k0 * (e N + 1) := by
    have h5 : (88 / 100 : ℚ) ^ (n - N) * e N ≤ (88 / 100 : ℚ) ^ k0 * e N :=
      mul_le_mul_of_nonneg_right hq (he N)
    have h6 : (88 / 100 : ℚ) ^ k0 * e N ≤ (88 / 100 : ℚ) ^ k0 * (e N + 1) :=
      mul_le_mul_of_nonneg_left (by linarith) (by positivity)
    linarith
  have hlt : (88 / 100 : ℚ) ^ k0 * (e N + 1) < ε / 2 := by
    have h7 : (0 : ℚ) < e N + 1 := by have := he N; linarith
    have h7' : e N + 1 ≠ 0 := ne_of_gt h7
    calc (88 / 100 : ℚ) ^ k0 * (e N + 1) < ε / (2 * (e N + 1)) * (e N + 1) :=
          mul_lt_mul_of_pos_right hk0 h7
      _ = ε / 2 := by field_simp; ring
  rw [sub_zero, abs_of_nonneg (he n)]
  linarith

/-- C8, counterexample.  The 1.21 bridge's overlay smoothing
(`hwglSwapBuffers`) has no large-delta branch: with the per-frame alpha at
its clamped maximum 0.65, a 1000-pixel jump — far above the 1.8.9 bridge's
snap threshold (deltaSq 24000, i.e. a jump of about 155 px) — is still
blended, leaving the smoothed position at (650, 0) instead of snapping to
(1000, 0) within the frame. -/
theorem c8_counterexample :
    overlaySmoothAlpha 1 = 65 / 100 ∧
    ((1000 : ℚ) - 0) * (1000 - 0) + (0 - 0) * (0 - 0) > 24000 ∧
    overlaySmoothStep (overlaySmoothAlpha 1) (0, 0) (1000, 0) ≠ (1000, 0) := by
  refine ⟨by norm_num [overlaySmoothAlpha], by norm_num, ?_⟩
  have h : overlaySmoothStep (overlaySmoothAlpha 1) (0, 0) (1000, 0) = (650, 0) := by
    norm_num [overlaySmoothAlpha, overlaySmoothStep]
  rw [h]
  intro hcontra
  have := congrArg Prod.fst hcontra
  norm_num at this

/-- C8, amended: the claim holds for the 1.8.9 bridge's `g_tagSmoothing`
update (the render path that has a large-delta threshold): whenever the
target jumps so that the squared distance from the current smoothed position
exceeds 24000, the smoothed position is set to the new position in that very
frame; and for any sequence of projected positions converging to a fixed
point, the exponentially blended position converges to that point (all blend
factors lie in [0.12, 0.22]).  The 1.21 overlay smoothing blends with a
clamped per-frame alpha and has no snap branch (see the counterexample). -/
theorem c8_smoothing (t : TagSmooth) (px py dist : ℚ)
    (hjump : (px - t.x) * (px - t.x) + (py - t.y) * (py - t.y) > 24000)
    (p : Nat → ℚ × ℚ) (d : Nat → ℚ) (lx ly : ℚ)
    (hx : TendsToQ (fun n => (p n).1) lx) (hy : TendsToQ (fun n => (p n).2) ly) :
    tagSmoothStep (some t) px py dist = ⟨px, py, 0, 0⟩ ∧
    TendsToQ (fun n => (tagSmoothSeq p d n).x) lx ∧
    TendsToQ (fun n => (tagSmoothSeq p d n).y) ly := by
  refine ⟨by simp only [tagSmoothStep]; rw [if_pos hjump], ?_, ?_⟩
  · have hrec : ∀ n, |(tagSmoothSeq p d (n + 1)).x - lx| ≤
        88 / 100 * |(tagSmoothSeq p d n).x - lx| + 2 * |(p (n + 1)).1 - lx| := by
      intro n
      have herr := (tagSmoothStep_err (tagSmoothSeq p d n) (p (n + 1)).1 (p (n + 1)).2
        (d (n + 1))).1
      have htri : |(tagSmoothSeq p d (n + 1)).x - lx| ≤
          |(tagSmoothSeq p d (n + 1)).x - (p (n + 1)).1| + |(p (n + 1)).1 - lx| :=
        abs_sub_le _ _ _
      have htri2 : |(tagSmoothSeq p d n).x - (p (n + 1)).1| ≤
          |(tagSmoothSeq p d n).x - lx| + |lx - (p (n + 1)).1| := abs_sub_le _ _ _
      have hcomm : |lx - (p (n + 1)).1| = |(p (n + 1)).1 - lx| := abs_sub_comm _ _
      have hstep : (tagSmoothSeq p d (n + 1)) =
          tagSmoothStep (some (tagSmoothSeq p d n)) (p (n + 1)).1 (p (n + 1)).2
            (d (n + 1)) := rfl
      have h88 : (88 / 100 : ℚ) * |(tagSmoothSeq p d n).x - (p (n + 1)).1| ≤
          88 / 100 * (|(tagSmoothSeq p d n).x - lx| + |(p (n + 1)).1 - lx|) := by
        rw [← hcomm]
        exact mul_le_mul_of_nonneg_left htri2 (by norm_num)
      rw [← hstep] at herr
      linarith [abs_nonneg ((p (n + 1)).1 - lx)]
    have hconv := conv_engine (fun n => |(tagSmoothSeq p d n).x - lx|)
      (fun n => |(p n).1 - lx|) (fun n => abs_nonneg _) (fun n => abs_nonneg _) hrec
      (by
        intro ε hε
        obtain ⟨N, hN⟩ := hx ε hε
        exact ⟨N, fun n hn => by
          rw [sub_zero, abs_abs]
          exact hN n hn⟩)
    intro ε hε
    obtain ⟨N, hN⟩ := hconv ε hε
    refine ⟨N, fun n hn => ?_⟩
    have := hN n hn
    rwa [sub_zero, abs_abs] at this
  · have hrec : ∀ n, |(tagSmoothSeq p d (n + 1)).y - ly| ≤
        88 / 100 * |(tagSmoothSeq p d n).y - ly| + 2 * |(p (n + 1)).2 - ly| := by
      intro n
      have herr := (tagSmoothStep_err (tagSmoothSeq p d n) (p (n + 1)).1 (p (n + 1)).2
        (d (n + 1))).2
      have htri : |(tagSmoothSeq p d (n + 1)).y - ly| ≤
          |(tagSmoothSeq p d (n + 1)).y - (p (n + 1)).2| + |(p (n + 1)).2 - ly| :=
        abs_sub_le _ _ _
      have htri2 : |(tagSmoothSeq p d n).y - (p (n + 1)).2| ≤
          |(tagSmoothSeq p d n).y - ly| + |ly - (p (n + 1)).2| := abs_sub_le _ _ _
      have hcomm : |ly - (p (n + 1)).2| = |(p (n + 1)).2 - ly| := abs_sub_comm _ _
      have hstep : (tagSmoothSeq p d (n + 1)) =
          tagSmoothStep (some (tagSmoothSeq p d n)) (p (n + 1)).1 (p (n + 1)).2
            (d (n + 1)) := rfl
      have h88 : (88 / 100 : ℚ) * |(tagSmoothSeq p d n).y - (p (n + 1)).2| ≤
          88 / 100 * (|(tagSmoothSeq p d n).y - ly| + |(p (n + 1)).2 - ly|) := by
        rw [← hcomm]
        exact mul_le_mul_of_nonneg_left htri2 (by norm_num)
      rw [← hstep] at herr
      linarith [abs_nonneg ((p (n + 1)).2 - ly)]
    have hconv := conv_engine (fun n => |(tagSmoothSeq p d n).y - ly|)
      (fun n => |(p n).2 - ly|) (fun n => abs_nonneg _) (fun n => abs_nonneg _) hrec
      (by
        intro ε hε
        obtain ⟨N, hN⟩ := hy ε hε
        exact ⟨N, fun n hn => by
          rw [sub_zero, abs_abs]
          exact hN n hn⟩)
    intro ε hε
    obtain ⟨N, hN⟩ := hconv ε hε
    refine ⟨N, fun n hn => ?_⟩
    have := hN n hn
    rwa [sub_zero, abs_abs] at this

/-- C8, witness: a 200-pixel jump (deltaSq 40000 > 24000) snaps in one
frame, and with the constant target (3, 4) the smoothed position converges
to (3, 4). -/
theorem c8_witness :
    tagSmoothStep (some ⟨0, 0, 0, 0⟩) 200 0 30 = ⟨200, 0, 0, 0⟩ ∧
    TendsToQ (fun n => (tagSmoothSeq (fun _ => (3, 4)) (fun _ => 20) n).x) 3 := by
  have hconst : TendsToQ (fun _ => (3 : ℚ)) 3 := fun ε hε =>
    ⟨0, fun n _ => by simpa using hε⟩
  have hconst2 : TendsToQ (fun _ => (4 : ℚ)) 4 := fun ε hε =>
    ⟨0, fun n _ => by simpa using hε⟩
  have h := c8_smoothing ⟨0, 0, 0, 0⟩ 200 0 30 (by norm_num)
    (fun _ => ((3 : ℚ), (4 : ℚ))) (fun _ => 20) 3 4 hconst hconst2
  exact ⟨h.1, h.2.1⟩

/-! ## C9 — snapshot atomicity under the swap-publish pattern -/

/-- Taking one more element keeps a prefix, phrased with `getD`. -/
theorem take_succ_getD (l : List Nat) (n : Nat) (h : n < l.length) :
    l.take (n + 1) = l.take n ++ [l.getD n 0] := by
  rw [List.take_succ, List.getElem?_eq_getElem h]
  rw [List.getD_eq_getElem?_getD, List.getElem?_eq_getElem h]
  rfl

/-- Reachability invariant of the writer/reader system: the published list is
always a complete snapshot of pass 0 or pass 1; the writer's private buffer
holds only pass-1 entries; lock ownership matches the phases; while the
reader copies, it holds the lock and its buffer is a prefix of the published
list; a finished copy is homogeneous. -/
def snapInv (a b : Nat) (s : SnapState) : Prop :=
  (s.published = List.replicate a 0 ∨ s.published = List.replicate b 1) ∧
  (s.wPhase = WPhase.building → s.wLocal = List.replicate (b - s.wLeft) 1 ∧ s.wLeft ≤ b) ∧
  (s.wPhase = WPhase.locking ∨ s.wPhase = WPhase.swapping →
    s.wLocal = List.replicate b 1) ∧
  (s.wPhase = WPhase.swapping ∨ s.wPhase = WPhase.releasing →
    s.lock = LockOwner.writer) ∧
  (s.rPhase = RPhase.locking → s.rBuf = [] ∧ s.rIdx = 0) ∧
  (s.rPhase = RPhase.copying →
    s.lock = LockOwner.reader ∧ s.rBuf = s.published.take s.rIdx) ∧
  (s.rPhase = RPhase.releasing → s.lock = LockOwner.reader) ∧
  (s.rPhase = RPhase.releasing ∨ s.rPhase = RPhase.done →
    (∀ x ∈ s.rBuf, x = 0) ∨ (∀ x ∈ s.rBuf, x = 1))

/-- The initial state satisfies the invariant. -/
theorem snapInv_init (a b : Nat) : snapInv a b (snapInit a b) := by
  refine ⟨Or.inl rfl, ?_, ?_, ?_, ?_, ?_, ?_, ?_⟩ <;> simp [snapInit]

/-- A writer step preserves the invariant. -/
theorem snapInv_wStep (a b : Nat) (s : SnapState) (h : snapInv a b s) :
    snapInv a b (wStep s) := by
  obtain ⟨hA, hB, hC, hD, hH, hE, hG, hF⟩ := h
  cases hw : s.wPhase with
  | building =>
      rcases hn : s.wLeft with _ | n
      · have hs : wStep s = { s with wPhase := WPhase.locking } := by
          simp [wStep, hw, hn]
        rw [hs]
        obtain ⟨hbl, _⟩ := hB hw
        rw [hn] at hbl
        refine ⟨?_, ?_, ?_, ?_, ?_, ?_, ?_, ?_⟩
        · exact hA
        · intro hph; simp at hph
        · intro _; simpa using hbl
        · intro hph; rcases hph with hph | hph <;> simp at hph
        · exact hH
        · exact hE
        · exact hG
        · exact hF
      · have hs : wStep s = { s with wLocal := s.wLocal ++ [1], wLeft := n } := by
          simp [wStep, hw, hn]
        rw [hs]
        obtain ⟨hbl, hle⟩ := hB hw
        rw [hn] at hbl hle
        refine ⟨?_, ?_, ?_, ?_, ?_, ?_, ?_, ?_⟩
        · exact hA
        · intro _
          constructor
          · show s.wLocal ++ [1] = List.replicate (b - n) 1
            rw [hbl, ← List.replicate_succ']
            congr 1
            omega
          · show n ≤ b
            omega
        · intro hph
          rcases hph with hph | hph <;> (rw [hw] at hph; simp at hph)
        · intro hph; exact hD hph
        · exact hH
        · exact hE
        · exact hG
        · exact hF
  | locking =>
      by_cases hl : s.lock = LockOwner.free
      · have hs : wStep s = { s with lock := LockOwner.writer, wPhase := WPhase.swapping } := by
          simp [wStep, hw, hl]
        rw [hs]
        have hnc : s.rPhase ≠ RPhase.copying := fun hr => by
          rw [(hE hr).1] at hl; cases hl
        have hnr : s.rPhase ≠ RPhase.releasing := fun hr => by
          rw [hG hr] at hl; cases hl
        refine ⟨?_, ?_, ?_, ?_, ?_, ?_, ?_, ?_⟩
        · exact hA
        · intro hph; simp at hph
        · intro _; exact hC (Or.inl hw)
        · intro _; rfl
        · exact hH
        · intro hr; exact absurd hr hnc
        · intro hr; exact absurd hr hnr
        · exact hF
      · have hs : wStep s = s := by
          have hl2 : (s.lock == LockOwner.free) = false := by
            cases hlv : s.lock <;> simp_all
          simp [wStep, hw, hl2]
        rw [hs]
        exact ⟨hA, hB, hC, hD, hH, hE, hG, hF⟩
  | swapping =>
      have hs : wStep s = { s with published := s.wLocal, wLocal := s.published, wPhase := WPhase.releasing } := by
        simp [wStep, hw]
      rw [hs]
      have hlw : s.lock = LockOwner.writer := hD (Or.inl hw)
      have hnc : s.rPhase ≠ RPhase.copying := fun hr => by
        rw [(hE hr).1] at hlw; cases hlw
      have hnr : s.rPhase ≠ RPhase.releasing := fun hr => by
        rw [hG hr] at hlw; cases hlw
      refine ⟨?_, ?_, ?_, ?_, ?_, ?_, ?_, ?_⟩
      · exact Or.inr (hC (Or.inr hw))
      · intro hph; simp at hph
      · intro hph; rcases hph with hph | hph <;> simp at hph
      · intro _; exact hlw
      · exact hH
      · intro hr; exact absurd hr hnc
      · intro hr; exact absurd hr hnr
      · exact hF
  | releasing =>
      have hs : wStep s = { s with lock := LockOwner.free, wPhase := WPhase.done } := by
        simp [wStep, hw]
      rw [hs]
      have hlw : s.lock = LockOwner.writer := hD (Or.inr hw)
      have hnc : s.rPhase ≠ RPhase.copying := fun hr => by
        rw [(hE hr).1] at hlw; cases hlw
      have hnr : s.rPhase ≠ RPhase.releasing := fun hr => by
        rw [hG hr] at hlw; cases hlw
      refine ⟨?_, ?_, ?_, ?_, ?_, ?_, ?_, ?_⟩
      · exact hA
      · intro hph; simp at hph
      · intro hph; rcases hph with hph | hph <;> simp at hph
      · intro hph; rcases hph with hph | hph <;> simp at hph
      · exact hH
      · intro hr; exact absurd hr hnc
      · intro hr; exact absurd hr hnr
      · exact hF
  | done =>
      have hs : wStep s = s := by simp [wStep, hw]
      rw [hs]
      exact ⟨hA, hB, hC, hD, hH, hE, hG, hF⟩

/-- A reader step preserves the invariant. -/
theorem snapInv_rStep (a b : Nat) (s : SnapState) (h : snapInv a b s) :
    snapInv a b (rStep s) := by
  obtain ⟨hA, hB, hC, hD, hH, hE, hG, hF⟩ := h
  cases hr : s.rPhase with
  | locking =>
      by_cases hl : s.lock = LockOwner.free
      · have hs : rStep s = { s with lock := LockOwner.reader, rPhase := RPhase.copying } := by
          simp [rStep, hr, hl]
        rw [hs]
        have hnw1 : s.wPhase ≠ WPhase.swapping := fun hw => by
          rw [hD (Or.inl hw)] at hl; cases hl
        have hnw2 : s.wPhase ≠ WPhase.releasing := fun hw => by
          rw [hD (Or.inr hw)] at hl; cases hl
        obtain ⟨hbuf, hidx⟩ := hH hr
        refine ⟨?_, ?_, ?_, ?_, ?_, ?_, ?_, ?_⟩
        · exact hA
        · exact hB
        · exact hC
        · intro hph
          rcases hph with hph | hph
          · exact absurd hph hnw1
          · exact absurd hph hnw2
        · intro hph; simp at hph
        · intro _
          refine ⟨rfl, ?_⟩
          show s.rBuf = s.published.take s.rIdx
          rw [hbuf, hidx]
          rfl
        · intro hph; simp at hph
        · intro hph; rcases hph with hph | hph <;> simp at hph
      · have hs : rStep s = s := by
          have hl2 : (s.lock == LockOwner.free) = false := by
            cases hlv : s.lock <;> simp_all
          simp [rStep, hr, hl2]
        rw [hs]
        exact ⟨hA, hB, hC, hD, hH, hE, hG, hF⟩
  | copying =>
      obtain ⟨hlr, hbuf⟩ := hE hr
      by_cases hlt : s.rIdx < s.published.length
      · have hs : rStep s = { s with rBuf := s.rBuf ++ [s.published.getD s.rIdx 0], rIdx := s.rIdx + 1 } := by
          simp [rStep, hr, hlt]
        rw [hs]
        refine ⟨?_, ?_, ?_, ?_, ?_, ?_, ?_, ?_⟩
        · exact hA
        · exact hB
        · exact hC
        · exact hD
        · intro hph; rw [hr] at hph; simp at hph
        · intro _
          refine ⟨hlr, ?_⟩
          show s.rBuf ++ [s.published.getD s.rIdx 0] = s.published.take (s.rIdx + 1)
          rw [hbuf, take_succ_getD _ _ hlt]
        · intro hph; rw [hr] at hph; simp at hph
        · intro hph
          rcases hph with hph | hph <;> (rw [hr] at hph; simp at hph)
      · have hs : rStep s = { s with rPhase := RPhase.releasing } := by
          simp [rStep, hr, hlt]
        rw [hs]
        have hfull : s.published.take s.rIdx = s.published :=
          List.take_of_length_le (by omega)
        have hhom : (∀ x ∈ s.rBuf, x = 0) ∨ (∀ x ∈ s.rBuf, x = 1) := by
          rw [hbuf, hfull]
          rcases hA with hA | hA
          · exact Or.inl fun x hx => List.eq_of_mem_replicate (hA ▸ hx)
          · exact Or.inr fun x hx => List.eq_of_mem_replicate (hA ▸ hx)
        refine ⟨?_, ?_, ?_, ?_, ?_, ?_, ?_, ?_⟩
        · exact hA
        · exact hB
        · exact hC
        · exact hD
        · intro hph; simp at hph
        · intro hph; simp at hph
        · intro _; exact hlr
        · intro _; exact hhom
  | releasing =>
      have hs : rStep s = { s with lock := LockOwner.free, rPhase := RPhase.done } := by
        simp [rStep, hr]
      rw [hs]
      have hlr : s.lock = LockOwner.reader := hG hr
      have hnw1 : s.wPhase ≠ WPhase.swapping := fun hw => by
        rw [hD (Or.inl hw)] at hlr; cases hlr
      have hnw2 : s.wPhase ≠ WPhase.releasing := fun hw => by
        rw [hD (Or.inr hw)] at hlr; cases hlr
      refine ⟨?_, ?_, ?_, ?_, ?_, ?_, ?_, ?_⟩
      · exact hA
      · exact hB
      · exact hC
      · intro hph
        rcases hph with hph | hph
        · exact absurd hph hnw1
        · exact absurd hph hnw2
      · intro hph; simp at hph
      · intro hph; simp at hph
      · intro hph; simp at hph
      · intro _; exact hF (Or.inl hr)
  | done =>
      have hs : rStep s = s := by simp [rStep, hr]
      rw [hs]
      exact ⟨hA, hB, hC, hD, hH, hE, hG, hF⟩

/-- Any schedule preserves the invariant. -/
theorem snapInv_run (a b : Nat) (sched : List Bool) (s : SnapState)
    (h : snapInv a b s) : snapInv a b (snapRun sched s) := by
  induction sched generalizing s with
  | nil => exact h
  | cons step rest ih =>
      cases step with
      | true => exact ih (wStep s) (snapInv_wStep a b s h)
      | false => exact ih (rStep s) (snapInv_rStep a b s h)

/-- C9.  Under any interleaving of the background thread (which builds the
new pass privately and publishes it as one swap under the lock) with the
render thread (which copies the published list element by element under the
lock), a completed copy consists entirely of entries from a single poll
pass — never a mix of pass-0 and pass-1 entries. -/
theorem c9_snapshot_atomic (sched : List Bool) (a b : Nat)
    (hdone : (snapRun sched (snapInit a b)).rPhase = RPhase.done) :
    (∀ x ∈ (snapRun sched (snapInit a b)).rBuf, x = 0) ∨
    (∀ x ∈ (snapRun sched (snapInit a b)).rBuf, x = 1) := by
  have hinv := snapInv_run a b sched (snapInit a b) (snapInv_init a b)
  exact hinv.2.2.2.2.2.2.2 (Or.inr hdone)

/-- C9, witness: a schedule where the writer builds and publishes between
the reader's copy steps; the reader still sees a homogeneous list. -/
theorem c9_witness :
    (snapRun [false, false, true, true, false, false] (snapInit 1 1)).rPhase =
      RPhase.done ∧
    ((∀ x ∈ (snapRun [false, false, true, true, false, false]
        (snapInit 1 1)).rBuf, x = 0) ∨
     (∀ x ∈ (snapRun [false, false, true, true, false, false]
        (snapInit 1 1)).rBuf, x = 1)) :=
  ⟨by decide, c9_snapshot_atomic [false, false, true, true, false, false] 1 1 (by decide)⟩

/-! ## C10 — display-name sanitization -/

/-- Every byte that survives the stripping loop is printable ASCII. -/
theorem stripMCBytes_ascii : ∀ l : List Nat, ∀ b ∈ stripMCBytes l, 32 ≤ b ∧ b ≤ 126 := by
  intro l
  induction l using stripMCBytes.induct with
  | case1 x rest ih =>
      intro b hb
      exact ih b (by simpa [stripMCBytes] using hb)
  | case2 x rest ih =>
      intro b hb
      exact ih b (by simpa [stripMCBytes] using hb)
  | case3 b rest hx1 hx2 hguard ih =>
      intro c hc
      rw [stripMCBytes.eq_def] at hc
      split at hc
      · rename_i head tail heq
        injection heq with h1 h2
        exact (hx1 head tail h1 h2).elim
      · rename_i head tail heq
        injection heq with h1 h2
        exact (hx2 head tail h1 h2).elim
      · rename_i b2 rest2 hy1 hy2 heq
        injection heq with h1 h2
        subst h1
        subst h2
        rw [if_pos hguard] at hc
        rcases List.mem_cons.1 hc with hcb | hcr
        · exact hcb ▸ hguard
        · exact ih c hcr
      · rename_i heq
        exact absurd heq (by simp)
  | case4 b rest hx1 hx2 hguard ih =>
      intro c hc
      rw [stripMCBytes.eq_def] at hc
      split at hc
      · rename_i head tail heq
        injection heq with h1 h2
        exact (hx1 head tail h1 h2).elim
      · rename_i head tail heq
        injection heq with h1 h2
        exact (hx2 head tail h1 h2).elim
      · rename_i b2 rest2 hy1 hy2 heq
        injection heq with h1 h2
        subst h1
        subst h2
        rw [if_neg hguard] at hc
        exact ih c hc
      · rename_i heq
        exact absurd heq (by simp)
  | case5 =>
      intro b hb
      simp [stripMCBytes] at hb

/-- C10.  `StripMinecraftFormatting` produces only printable ASCII bytes
(32-126), removes every section-sign formatting sequence (the UTF-8 pair
`0xC2 0xA7`, or a raw `0xA7`, together with the following format-code byte),
and caps the result at 96 bytes; and the display names that bridge.cpp
renders or embeds in overlay text — the nametag name (line 2126), the
closest-player name (line 2381) and the held-item name (line 1610) — are
exactly this function's output, hence sanitized. -/
theorem c10_sanitization :
    (∀ l : List Nat, ∀ b ∈ stripMinecraftFormatting l, 32 ≤ b ∧ b ≤ 126) ∧
    (∀ l : List Nat, (stripMinecraftFormatting l).length ≤ 96) ∧
    (∀ (x : Nat) (rest : List Nat),
      stripMCBytes (0xC2 :: 0xA7 :: x :: rest) = stripMCBytes rest) ∧
    (∀ (x : Nat) (rest : List Nat),
      stripMCBytes (0xA7 :: x :: rest) = stripMCBytes rest) ∧
    (∀ raw : List Nat,
      renderNametagDisplayName raw = stripMinecraftFormatting raw ∧
      closestPlayerDisplayName raw = stripMinecraftFormatting raw ∧
      heldItemDisplayName raw = stripMinecraftFormatting raw) := by
  refine ⟨?_, ?_, fun x rest => rfl, fun x rest => rfl, fun raw => ⟨rfl, rfl, rfl⟩⟩
  · intro l b hb
    exact stripMCBytes_ascii l b (List.mem_of_mem_take hb)
  · intro l
    exact List.length_take_le 96 (stripMCBytes l)

/-- C10, witness: the name `"§cBob"` (raw section sign) and `"Ä§aX"`-style
UTF-8 input are sanitized to plain ASCII. -/
theorem c10_witness :
    (32 ≤ 66 ∧ 66 ≤ 126) ∧
    stripMinecraftFormatting [0xA7, 99, 66, 111, 98] = [66, 111, 98] ∧
    stripMinecraftFormatting [0xC2, 0xA7, 97, 88, 200] = [88] := by
  refine ⟨c10_sanitization.1 [0xA7, 99, 66, 111, 98] 66 (by decide), by decide, by decide⟩
